import Mathlib

/-!
Shallow embedding of the zcamp activity detection engine
(`src/backend/activity_manager.py` together with `src/backend/constants.py`).

Modelling conventions:
* Python `dict`s that hold records become Lean structures; keys that may be
  absent (or `None`) become `Option` fields.
* Python truthiness tests (`if x:`) on optional ints / strings are modelled by
  `truthyN` / `truthyS` (both `None` and `0` / `""` are falsy).
* Python `float` arithmetic in the matcher and the probability pipeline is
  modelled over `Q` (exact arithmetic); `round` is Python's half-to-even.
* The wall clock `_now_ms()` is passed explicitly as a parameter `now : Int`,
  assumed constant for the duration of a single engine operation.
* `ActivityManager._crews` is an insertion-ordered map, modelled as an
  association list `List (String × Crew)`; Python's stable `list.sort` is
  modelled with `stableSort` (a stable insertion sort).
* `random`-generated crew ids are passed in as the parameter `newId`.
* The expired queue stores the crews themselves; `_serialize_crew` is a pure
  projection applied at the boundary and is irrelevant to which crews are
  queued, so it is not modelled.
* `SMARTBOMB_SHIPS` is a Python `frozenset`, yet
  `_calculate_camp_probability` calls `.get` on it; when that line is reached
  it raises `AttributeError`.  The probability computation is therefore
  modelled as returning `Option (Int × Int)` (result and updated
  `max_probability`); `none` models the raised exception, after which the
  caller's remaining statements do not run while prior field mutations stay.
-/

namespace ZCamp

/-! ### Exact rational arithmetic

Python `float` values are modelled by unreduced fractions `num / den`.
Every value built by the engine has a positive denominator (denominators
come from list lengths and positive literal constants), and all
operations below are plain integer arithmetic, so concrete engine runs
reduce inside the kernel. -/

structure Q where
  num : Int
  den : Nat
  deriving DecidableEq, Repr

def Q.ofNat (n : Nat) : Q := ⟨n, 1⟩

def Q.ofInt (i : Int) : Q := ⟨i, 1⟩

instance : OfNat Q n := ⟨⟨n, 1⟩⟩

instance : Zero Q := ⟨⟨0, 1⟩⟩

instance : Add Q := ⟨fun a b => ⟨a.num * b.den + b.num * a.den, a.den * b.den⟩⟩

instance : Neg Q := ⟨fun a => ⟨-a.num, a.den⟩⟩

instance : Sub Q := ⟨fun a b => a + -b⟩

instance : Mul Q := ⟨fun a b => ⟨a.num * b.num, a.den * b.den⟩⟩

/-- Division; only ever applied with a positive divisor. -/
instance : Div Q := ⟨fun a b => ⟨a.num * b.den, a.den * b.num.toNat⟩⟩

instance : LE Q := ⟨fun a b => a.num * (b.den : Int) ≤ b.num * (a.den : Int)⟩

instance : LT Q := ⟨fun a b => a.num * (b.den : Int) < b.num * (a.den : Int)⟩

instance (a b : Q) : Decidable (a ≤ b) :=
  inferInstanceAs (Decidable (a.num * (b.den : Int) ≤ b.num * (a.den : Int)))

instance (a b : Q) : Decidable (a < b) :=
  inferInstanceAs (Decidable (a.num * (b.den : Int) < b.num * (a.den : Int)))

/-- Python `min` on two values (first argument wins ties). -/
instance : Min Q := ⟨fun a b => if a ≤ b then a else b⟩

/-- Python `max` on two values (first argument wins ties). -/
instance : Max Q := ⟨fun a b => if b > a then b else a⟩

/-- Floor of a fraction with positive denominator. -/
def Q.floorI (a : Q) : Int := Int.fdiv a.num a.den

/-! ### Constants (`src/backend/constants.py` and module constants) -/

def CAPSULE_ID : Nat := 670

def MTU_ID : Nat := 35834

def CAMP_TIMEOUT_MS : Int := 30 * 60 * 1000

def ROAM_TIMEOUT_MS : Int := 30 * 60 * 1000

def DECAY_START_MS : Int := 13 * 60 * 1000

def MEMBER_IDLE_TIMEOUT_MS : Int := 15 * 60000

def MEMBER_DEPARTED_TIMEOUT_MS : Int := 45 * 60000

def CREW_MIN_KILLS_TO_SAVE : Nat := 2

def DISSOLUTION_ACTIVE_FRAC : Q := ⟨30, 100⟩

def DISSOLUTION_MIN_ACTIVE : Nat := 2

def MATCH_THRESHOLD : Q := ⟨35, 100⟩

def CHAR_OVERLAP_WEIGHT : Q := ⟨50, 100⟩

def CORP_ALLIANCE_WEIGHT : Q := ⟨25, 100⟩

def SPATIAL_WEIGHT : Q := ⟨15, 100⟩

def TEMPORAL_WEIGHT : Q := ⟨10, 100⟩

def THREAT_SCORE_CAP : Q := ⟨50, 100⟩

def MAX_CONSISTENCY_BONUS : Q := ⟨30, 100⟩

def WIDELY_SPACED_BONUS : Q := ⟨15, 100⟩

def MAX_WIDELY_SPACED_BONUS : Q := ⟨45, 100⟩

def POD_BONUS_PER_KILL : Q := ⟨3, 100⟩

def MAX_POD_BONUS : Q := ⟨15, 100⟩

def BURST_PENALTY : Q := ⟨20, 100⟩

def OVERALL_PROB_CAP : Q := ⟨95, 100⟩

def MIN_PROB_THRESHOLD : Int := 5

def BATTLE_PARTICIPANT_THRESHOLD : Nat := 40

def INTERDICTOR_SHIP_IDS : List Nat :=
  [22456, 22464, 22452, 22460, 12013, 11995, 12021, 12017]

def SMARTBOMB_WEAPON_IDS : List Nat :=
  [3993, 3977, 3987, 3981, 3983, 3989, 3979, 3995, 3955, 3939, 3949, 3943,
   15963, 28545, 14190, 14792, 9678, 23868, 14794, 15947, 14784, 14796,
   14188, 14798, 14790, 14788, 14786, 9772, 21538, 14208, 14548, 14546,
   14544, 15939, 14550, 15955, 15156, 14206, 15154, 84496, 9808, 15152,
   15158, 14694, 14696, 84495, 9668, 15931, 14204, 14698, 14692, 15953,
   14220, 84498, 9800, 14222, 15937, 21536, 9762, 15929, 14210, 84497,
   9728, 14192, 14194, 15961, 23866, 9734, 15945]

def THREAT_SHIPS : List (Nat × Q) :=
  [(3756, ⟨20, 100⟩), (11202, ⟨3, 100⟩), (11196, ⟨11, 100⟩), (11176, ⟨4, 100⟩),
   (11184, ⟨3, 100⟩), (11186, ⟨8, 100⟩), (11200, ⟨3, 100⟩), (11178, ⟨4, 100⟩),
   (29988, ⟨35, 100⟩), (20125, ⟨20, 100⟩), (17722, ⟨25, 100⟩), (22456, ⟨50, 100⟩),
   (22464, ⟨44, 100⟩), (22452, ⟨44, 100⟩), (22460, ⟨44, 100⟩), (12013, ⟨40, 100⟩),
   (11995, ⟨40, 100⟩), (12021, ⟨40, 100⟩), (12017, ⟨40, 100⟩), (29984, ⟨15, 100⟩),
   (29990, ⟨29, 100⟩), (11174, ⟨30, 100⟩), (35683, ⟨5, 100⟩), (11969, ⟨30, 100⟩),
   (11961, ⟨30, 100⟩), (11957, ⟨4, 100⟩), (29986, ⟨9, 100⟩), (47466, ⟨10, 100⟩),
   (12038, ⟨5, 100⟩), (12034, ⟨5, 100⟩), (17720, ⟨12, 100⟩), (11963, ⟨16, 100⟩),
   (12044, ⟨8, 100⟩), (17922, ⟨18, 100⟩), (11999, ⟨6, 100⟩), (85086, ⟨4, 100⟩),
   (33818, ⟨3, 100⟩), (11971, ⟨22, 100⟩), (4310, ⟨1, 100⟩), (17738, ⟨1, 100⟩),
   (11387, ⟨3, 100⟩)]

def SMARTBOMB_SHIPS : List Nat := [17738, 3756, 29988, 47466]

structure PermCamp where
  gates : List String
  weight : Q
  deriving DecidableEq, Repr

def PERMANENT_CAMPS : List (Int × PermCamp) :=
  [(30002813, ⟨["Nourvukaiken", "Kedama"], ⟨50, 100⟩⟩),
   (30003068, ⟨["Miroitem", "Crielere"], ⟨50, 100⟩⟩),
   (30000142, ⟨["Perimeter"], ⟨25, 100⟩⟩),
   (30002647, ⟨["Iyen-Oursta"], ⟨30, 100⟩⟩),
   (30005196, ⟨["Shera"], ⟨40, 100⟩⟩)]

/-! ### Python-semantics helpers -/

/-- Python truthiness of an optional int (`None` and `0` are falsy). -/
def truthyN : Option Nat → Bool
  | none => false
  | some n => n != 0

/-- Python truthiness of an optional string (`None` and `""` are falsy). -/
def truthyS : Option String → Bool
  | none => false
  | some s => s != ""

/-- Python `str(x)` for an optional int (`str(None) = "None"`). -/
def pyStrI : Option Int → String
  | none => "None"
  | some i => toString i

/-- Does `needle` occur at the head of `hay`? -/
def headMatch : List Char → List Char → Bool
  | [], _ => true
  | _ :: _, [] => false
  | a :: as, b :: bs => a == b && headMatch as bs

/-- Does `needle` occur anywhere in `hay`? -/
def subSearch (needle : List Char) : List Char → Bool
  | [] => headMatch needle []
  | c :: cs => headMatch needle (c :: cs) || subSearch needle cs

/-- Python `needle in hay` on strings. -/
def strIn (needle hay : String) : Bool :=
  subSearch needle.toList hay.toList

/-- Python `round` (half-to-even) of a rational, as used on `base * 100`. -/
def pyRound (q : Q) : Int :=
  let f := q.floorI
  let r := q - Q.ofInt f
  if r < (⟨1, 2⟩ : Q) then f
  else if (⟨1, 2⟩ : Q) < r then f + 1
  else if f % 2 = 0 then f else f + 1

/-- Add an element to a Python-set-as-list if not already present. -/
def insertIfAbsent [DecidableEq α] (x : α) (l : List α) : List α :=
  if x ∈ l then l else l ++ [x]

/-- Set union on Python-sets-as-lists (left-biased order). -/
def unionList [DecidableEq α] (a b : List α) : List α :=
  b.foldl (fun acc x => insertIfAbsent x acc) a

/-- Set intersection on Python-sets-as-lists. -/
def interList [DecidableEq α] (a b : List α) : List α :=
  a.filter (fun x => x ∈ b)

/-- Deduplicate a list keeping first occurrences (`set(...)` cardinality). -/
def uniqList [DecidableEq α] (l : List α) : List α :=
  l.foldl (fun acc x => insertIfAbsent x acc) []

/-- Python `l[-n:]`. -/
def lastN (n : Nat) (l : List α) : List α :=
  l.drop (l.length - n)

/-- Insert `x` into `l` before the first element `y` with `le x y`;
inserting the earlier-positioned element this way makes `stableSort`
stable, like Python `list.sort`. -/
def stableInsert (le : α → α → Bool) (x : α) : List α → List α
  | [] => [x]
  | y :: ys => if le x y then x :: y :: ys else y :: stableInsert le x ys

/-- Stable sort by a boolean comparison (models Python `list.sort`). -/
def stableSort (le : α → α → Bool) : List α → List α
  | [] => []
  | x :: xs => stableInsert le x (stableSort le xs)

/-- Lookup in an insertion-ordered dict modelled as an association list. -/
def dictGet [DecidableEq κ] : List (κ × β) → κ → Option β
  | [], _ => none
  | (k, v) :: t, key => if k = key then some v else dictGet t key

/-- Dict assignment: replace in place, or append a fresh key. -/
def dictSet [DecidableEq κ] : List (κ × β) → κ → β → List (κ × β)
  | [], key, v => [(key, v)]
  | (k, w) :: t, key, v =>
    if k = key then (k, v) :: t else (k, w) :: dictSet t key v

/-- Dict deletion (`del d[key]`), preserving the order of the rest. -/
def dictDel [DecidableEq κ] : List (κ × β) → κ → List (κ × β)
  | [], _ => []
  | (k, w) :: t, key => if k = key then t else (k, w) :: dictDel t key

/-- `Counter(...).most_common(1)`: the most frequent value; ties are broken
by first encounter, as in CPython. -/
def mostCommon (l : List Nat) : Option Nat :=
  match (uniqList l).map (fun x => (x, (l.filter (fun y => y = x)).length)) with
  | [] => none
  | h :: t => some (t.foldl (fun best p => if p.2 > best.2 then p else best) h).1

/-- Any adjacent pair of the list satisfying the predicate. -/
def consecAny (f : Int → Int → Bool) : List Int → Bool
  | [] => false
  | [_] => false
  | a :: b :: t => f a b || consecAny f (b :: t)

/-! ### Event data model (enriched killmail dicts) -/

structure Zkb where
  totalValue : Q := 0
  labels : List String := []
  awox : Bool := false
  deriving DecidableEq, Repr

structure Victim where
  character_id : Option Nat := none
  corporation_id : Option Nat := none
  alliance_id : Option Nat := none
  ship_type_id : Option Nat := none
  deriving DecidableEq, Repr

structure Attacker where
  character_id : Option Nat := none
  corporation_id : Option Nat := none
  alliance_id : Option Nat := none
  ship_type_id : Option Nat := none
  weapon_type_id : Option Nat := none
  faction_id : Option Nat := none
  deriving DecidableEq, Repr

/-- `killmail["killmail"]`.  `killmail_time` holds the value of
`_kill_time_ms` applied to the ISO timestamp; `none` models a missing or
unparsable timestamp (for which `_kill_time_ms` falls back to `now`). -/
structure KmData where
  killmail_time : Option Int := none
  solar_system_id : Option Int := none
  victim : Victim := {}
  attackers : List Attacker := []
  deriving DecidableEq, Repr

structure NearestCelestial where
  name : Option String := none
  deriving DecidableEq, Repr

structure CelestialData where
  solarsystemname : Option String := none
  regionname : Option String := none
  deriving DecidableEq, Repr

structure Pinpoints where
  celestialData : CelestialData := {}
  nearestCelestial : Option NearestCelestial := none
  atCelestial : Bool := false
  triangulationType : Option String := none
  deriving DecidableEq, Repr

structure VicCat where
  category : Option String := none
  deriving DecidableEq, Repr

structure ShipCategories where
  victim : Option VicCat := none
  deriving DecidableEq, Repr

structure Killmail where
  killID : Option Nat := none
  zkb : Zkb := {}
  killmail : KmData := {}
  pinpoints : Pinpoints := {}
  shipCategories : ShipCategories := {}
  deriving DecidableEq, Repr

/-- `_kill_time_ms`: the parsed kill time, falling back to the clock. -/
def killTimeMs (k : Killmail) (now : Int) : Int :=
  k.killmail.killmail_time.getD now

/-- `kill.get("shipCategories", {}).get("victim", {}).get("category")`. -/
def vicCategory (k : Killmail) : Option String :=
  match k.shipCategories.victim with
  | none => none
  | some vc => vc.category

/-! ### Member and crew state -/

structure MemberState where
  character_id : Nat
  corp_id : Option Nat := none
  alliance_id : Option Nat := none
  ship_type_ids : List Nat := []
  first_seen : Int := 0
  last_seen : Int := 0
  kill_count : Nat := 0
  status : String := "active"
  deriving DecidableEq, Repr

structure SystemVisit where
  id : Option Int
  name : String
  region : Option String
  time : Int
  deriving DecidableEq, Repr

structure Transition where
  tfrom : String
  tto : String
  time : Int
  systemId : Option Int
  systemName : String
  killId : Option Nat
  deriving DecidableEq, Repr

structure ClassHistEntry where
  classification : String
  time : Int
  systemId : Option Int
  systemName : String
  deriving DecidableEq, Repr

structure Crew where
  id : String
  anchor_corp_id : Option Nat := none
  anchor_alliance_id : Option Nat := none
  anchor_corp_ids : List Nat := []
  members : List (Nat × MemberState) := []
  kills : List Killmail := []
  total_value : Q := 0
  current_system_id : Option Int
  current_system_name : String
  current_region : Option String
  current_location : Option String := none
  systems_visited : List SystemVisit
  visited_system_ids : List (Option Int)
  classification : String := "activity"
  classification_history : List ClassHistEntry := []
  transitions : List Transition := []
  probability : Int := 0
  max_probability : Int := 0
  created_at : Int
  last_kill_at : Int
  last_activity_at : Int
  has_smartbombs : Bool := false
  stargate_name : Option String := none
  gate_kill_count : Nat := 0
  prev_session_id : Option String := none
  per_member_ships : List (Nat × List Nat) := []
  deriving DecidableEq, Repr

/-- `Crew.__init__`. -/
def newCrew (crew_id : String) (system_id : Option Int) (system_name : String)
    (region_name : Option String) (kill_time : Int) : Crew :=
  { id := crew_id
    current_system_id := system_id
    current_system_name := system_name
    current_region := region_name
    systems_visited := [⟨system_id, system_name, region_name, kill_time⟩]
    visited_system_ids := [system_id]
    created_at := kill_time
    last_kill_at := kill_time
    last_activity_at := kill_time }

/-! ### Killmail helpers (`activity_manager.py` module functions) -/

/-- One attacker's contribution in `_extract_attacker_info`. -/
def extractStep (acc : List Nat × List Nat × List Nat) (a : Attacker) :
    List Nat × List Nat × List Nat :=
  if !truthyN a.character_id then acc
  else if a.ship_type_id = some CAPSULE_ID then acc
  else
    let chars := insertIfAbsent (a.character_id.getD 0) acc.1
    let corps :=
      if truthyN a.corporation_id then
        insertIfAbsent (a.corporation_id.getD 0) acc.2.1
      else acc.2.1
    let allis :=
      if truthyN a.alliance_id then
        insertIfAbsent (a.alliance_id.getD 0) acc.2.2
      else acc.2.2
    (chars, corps, allis)

/-- `_extract_attacker_info`: character / corp / alliance id sets of the
player (non-capsule) attackers, in encounter order. -/
def extractAttackerInfo (km : KmData) : List Nat × List Nat × List Nat :=
  km.attackers.foldl extractStep ([], [], [])

/-- `_attacker_count`: player attackers (has character id, not a capsule). -/
def attackerCountKm (k : Killmail) : Nat :=
  (k.killmail.attackers.filter
    (fun a => truthyN a.character_id && !(a.ship_type_id = some CAPSULE_ID))).length

/-- `_is_followup_pod`: a capsule kill whose victim already lost a ship in
`earlier`. -/
def isFollowupPod (k : Killmail) (earlier : List Killmail) : Bool :=
  let victim := k.killmail.victim
  if !(victim.ship_type_id = some CAPSULE_ID) then false
  else if !truthyN victim.character_id then false
  else
    earlier.any (fun e =>
      e.killmail.victim.character_id = victim.character_id
        && !(e.killmail.victim.ship_type_id = some CAPSULE_ID))

/-- `ActivityManager._is_gate_camp_kill`. -/
def isGateCampKill (k : Killmail) : Bool :=
  match k.pinpoints.nearestCelestial with
  | none => false
  | some nc =>
    match nc.name with
    | none => false
    | some nm =>
      if nm = "" then false
      else if !strIn "stargate" nm.toLower then false
      else
        k.pinpoints.atCelestial
          || k.pinpoints.triangulationType = some "direct_warp"
          || k.pinpoints.triangulationType = some "near_celestial"

/-- `ActivityManager._has_smartbombs` applied to a single killmail. -/
def killHasSmartbombWeapon (k : Killmail) : Bool :=
  k.killmail.attackers.any (fun a =>
    match a.weapon_type_id with
    | some w => w ∈ SMARTBOMB_WEAPON_IDS
    | none => false)

/-! ### Crew methods -/

/-- `Crew.add_or_update_member`. -/
def addOrUpdateMember (c : Crew) (char_id : Nat) (corp_id alliance_id ship_type_id : Option Nat)
    (kill_time : Int) : Crew :=
  let members' :=
    match dictGet c.members char_id with
    | some m =>
      let m := { m with
        last_seen := kill_time
        kill_count := m.kill_count + 1
        status := "active"
        ship_type_ids :=
          if truthyN ship_type_id then
            insertIfAbsent (ship_type_id.getD 0) m.ship_type_ids
          else m.ship_type_ids
        corp_id := if truthyN corp_id then corp_id else m.corp_id
        alliance_id := if truthyN alliance_id then alliance_id else m.alliance_id }
      dictSet c.members char_id m
    | none =>
      dictSet c.members char_id
        { character_id := char_id
          corp_id := corp_id
          alliance_id := alliance_id
          ship_type_ids := if truthyN ship_type_id then [ship_type_id.getD 0] else []
          first_seen := kill_time
          last_seen := kill_time
          kill_count := 1
          status := "active" }
  let pms :=
    if truthyN ship_type_id then
      match dictGet c.per_member_ships char_id with
      | some ships =>
        dictSet c.per_member_ships char_id (insertIfAbsent (ship_type_id.getD 0) ships)
      | none => dictSet c.per_member_ships char_id [ship_type_id.getD 0]
    else c.per_member_ships
  { c with members := members', per_member_ships := pms }

/-- `Crew.update_member_statuses`. -/
def updateMemberStatuses (c : Crew) (now : Int) : Crew :=
  { c with
    members := c.members.map (fun p =>
      let m := p.2
      if m.status = "departed" then p
      else if now - m.last_seen > MEMBER_DEPARTED_TIMEOUT_MS then
        (p.1, { m with status := "departed" })
      else if now - m.last_seen > MEMBER_IDLE_TIMEOUT_MS then
        (p.1, { m with status := "idle" })
      else p) }

/-- Members with status `active` or `idle`. -/
def activeIdleMembers (c : Crew) : List (Nat × MemberState) :=
  c.members.filter (fun p => p.2.status = "active" || p.2.status = "idle")

/-- `Crew.update_anchor`. -/
def updateAnchor (c : Crew) : Crew :=
  let act := activeIdleMembers c
  if act.isEmpty then c
  else
    let allis := act.filterMap (fun p =>
      if truthyN p.2.alliance_id then some (p.2.alliance_id.getD 0) else none)
    let corps := act.filterMap (fun p =>
      if truthyN p.2.corp_id then some (p.2.corp_id.getD 0) else none)
    let c := if allis.isEmpty then c else { c with anchor_alliance_id := mostCommon allis }
    let c := if corps.isEmpty then c else { c with anchor_corp_id := mostCommon corps }
    { c with anchor_corp_ids := uniqList corps }

/-- `Crew.active_count`. -/
def activeCount (c : Crew) : Nat :=
  (c.members.filter (fun p => p.2.status = "active")).length

/-- `Crew.total_member_count`. -/
def totalMemberCount (c : Crew) : Nat :=
  c.members.length

/-- `Crew.is_dissolving`. -/
def isDissolving (c : Crew) : Bool :=
  let total := totalMemberCount c
  if total < 3 then false
  else
    let active := activeCount c
    let ratio : Q := if total > 0 then Q.ofNat active / Q.ofNat total else 0
    decide (ratio < DISSOLUTION_ACTIVE_FRAC) && decide (active < DISSOLUTION_MIN_ACTIVE)

/-! ### Kill processing (`ActivityManager` private helpers) -/

/-- `ActivityManager._add_kill_to_crew` (dedup by `killID`). -/
def addKillToCrew (c : Crew) (k : Killmail) (kill_time : Int) : Crew :=
  if c.kills.any (fun e => e.killID = k.killID) then c
  else
    { c with
      kills := c.kills ++ [k]
      total_value := c.total_value + k.zkb.totalValue
      last_kill_at := kill_time
      last_activity_at := kill_time }

/-- One attacker's contribution in `_update_members_from_kill`. -/
def memberStep (kill_time : Int) (crew : Crew) (a : Attacker) : Crew :=
  if !truthyN a.character_id then crew
  else if a.ship_type_id = some CAPSULE_ID then crew
  else
    addOrUpdateMember crew (a.character_id.getD 0) a.corporation_id
      a.alliance_id a.ship_type_id kill_time

/-- `ActivityManager._update_members_from_kill`. -/
def updateMembersFromKill (c : Crew) (km : KmData) (kill_time : Int) : Crew :=
  km.attackers.foldl (memberStep kill_time) c

/-- `ActivityManager._count_effective_kills` (inner loop). -/
def countEffGo : List Killmail → List Nat → Nat → Nat
  | [], _, acc => acc
  | k :: ks, seen, acc =>
    let victim := k.killmail.victim
    if !(victim.ship_type_id = some CAPSULE_ID) then
      let seen' :=
        if truthyN victim.character_id then
          insertIfAbsent (victim.character_id.getD 0) seen
        else seen
      countEffGo ks seen' (acc + 1)
    else
      if truthyN victim.character_id then
        if victim.character_id.getD 0 ∈ seen then countEffGo ks seen acc
        else countEffGo ks seen (acc + 1)
      else countEffGo ks seen (acc + 1)

/-- `ActivityManager._count_effective_kills`: ship kills plus orphan pods. -/
def countEffectiveKills (c : Crew) : Nat :=
  countEffGo c.kills [] 0

/-- The trailing gate-ratio test shared by `_update_spatial_state` and
`_merge_crews`: clear `stargate_name` when
`gate_kill_count < effective_kills / 2`. -/
def gateRatioCheck (c : Crew) : Crew :=
  let eff := countEffectiveKills c
  if eff > 0 && decide (Q.ofNat c.gate_kill_count < Q.ofNat eff / 2) then
    { c with stargate_name := none }
  else c

/-- `ActivityManager._update_spatial_state` up to (but not including) the
final gate-ratio test. -/
def updateSpatialCore (c : Crew) (k : Killmail) (system_id : Option Int)
    (system_name : String) (region_name : Option String) (kill_time : Int) : Crew :=
  let c :=
    if c.current_system_id ≠ system_id then
      { c with
        systems_visited := c.systems_visited ++ [⟨system_id, system_name, region_name, kill_time⟩]
        current_system_id := system_id
        current_system_name := system_name
        current_region := region_name }
    else c
  let c := { c with visited_system_ids := insertIfAbsent system_id c.visited_system_ids }
  let ncName : Option String :=
    match k.pinpoints.nearestCelestial with
    | some nc => nc.name
    | none => none
  let c := if truthyS ncName then { c with current_location := ncName } else c
  let is_gate := isGateCampKill k
  let is_pod := k.killmail.victim.ship_type_id = some CAPSULE_ID
  let c :=
    if is_gate then
      if !is_pod then { c with gate_kill_count := c.gate_kill_count + 1 }
      else if !isFollowupPod k c.kills.dropLast then
        { c with gate_kill_count := c.gate_kill_count + 1 }
      else c
    else c
  if is_gate && truthyS ncName then { c with stargate_name := ncName } else c

/-- `ActivityManager._update_spatial_state`. -/
def updateSpatialState (c : Crew) (k : Killmail) (system_id : Option Int)
    (system_name : String) (region_name : Option String) (kill_time : Int) : Crew :=
  gateRatioCheck (updateSpatialCore c k system_id system_name region_name kill_time)

/-! ### Classification -/

/-- `ActivityManager._is_stationary_recent`. -/
def isStationaryRecent (c : Crew) : Bool :=
  let recent := if c.kills.length > 5 then lastN 5 c.kills else c.kills
  if recent.isEmpty then true
  else (uniqList (recent.map (fun k => k.killmail.solar_system_id))).length ≤ 1

/-- `ActivityManager._has_interdictor_attacker`. -/
def hasInterdictorAttacker (c : Crew) : Bool :=
  c.members.any (fun p =>
    (p.2.status = "active" || p.2.status = "idle")
      && !(interList p.2.ship_type_ids INTERDICTOR_SHIP_IDS).isEmpty)

/-- `ActivityManager._derive_classification`. -/
def deriveClassification (c : Crew) : String :=
  let prob := c.probability
  let systems_count := c.visited_system_ids.length
  let participants := (activeIdleMembers c).length
  let is_at_gate := truthyS c.stargate_name
  let is_solo := !c.kills.isEmpty && c.kills.all (fun k => attackerCountKm k = 1)
  if c.has_smartbombs && is_at_gate && isStationaryRecent c then "smartbomb"
  else if participants ≥ BATTLE_PARTICIPANT_THRESHOLD then "battle"
  else if is_solo && is_at_gate && hasInterdictorAttacker c then "solo_camp"
  else if is_solo then "solo_roam"
  else if is_at_gate && prob ≥ 5 && systems_count > 1 && isStationaryRecent c then
    "roaming_camp"
  else if is_at_gate && prob ≥ 5 && (systems_count = 1 || isStationaryRecent c) then
    "camp"
  else if systems_count > 1 then "roam"
  else "activity"

/-! ### Probability pipeline (`_calculate_camp_probability`) -/

/-- Deduplicated player-attacker character ids of one killmail. -/
def attackerCharSet (k : Killmail) : List Nat :=
  k.killmail.attackers.foldl
    (fun acc a =>
      if truthyN a.character_id then insertIfAbsent (a.character_id.getD 0) acc
      else acc)
    []

/-- Stage-1 relevance filter of `_calculate_camp_probability`. -/
def probKillFilter (k : Killmail) : Bool :=
  let victim := k.killmail.victim
  if k.zkb.awox then false
  else if (truthyN victim.corporation_id && !truthyN victim.character_id)
      || k.zkb.labels.contains "npc" then false
  else if vicCategory k = some "structure" then false
  else if victim.ship_type_id = some MTU_ID then false
  else
    let attackers := k.killmail.attackers
    let has_player := attackers.any (fun a => truthyN a.character_id || truthyN a.faction_id)
    !(!has_player && !attackers.isEmpty)

/-- Stage 12 of `_calculate_camp_probability`: round, apply the minimum
threshold, and update `max_probability`. -/
def finalizeProb (maxp : Int) (base : Q) : Int × Int :=
  let pct := pyRound (base * 100)
  if pct < MIN_PROB_THRESHOLD then (0, maxp)
  else (pct, max maxp pct)

/-- Stages 5-11 of `_calculate_camp_probability`: the running `base` after
the threat-ship stage and the smartbomb stage, through the location,
vulnerable-victim, consistency, spacing, pod and decay stages. -/
def probBaseLate (c : Crew) (now : Int) (ship_kills pod_kills : List Killmail)
    (minutes_since : Q) (base2 : Q) : Q :=
  let base :=
    match c.stargate_name with
    | some sg =>
      if sg ≠ "" then
        match (match c.current_system_id with
               | some sid => dictGet PERMANENT_CAMPS sid
               | none => none) with
        | some camp_info =>
          if camp_info.gates.any (fun g => strIn g.toLower sg.toLower) then
            base2 + camp_info.weight
          else base2
        | none => base2
      else base2
    | none => base2
  let vuln_count :=
    (ship_kills.filter (fun k =>
      match k.shipCategories.victim with
      | some vc => vc.category = some "industrial" || vc.category = some "mining"
      | none => false)).length
  let base :=
    if vuln_count > 0 then base + (if vuln_count > 1 then (⟨40, 100⟩ : Q) else (⟨20, 100⟩ : Q))
    else base
  let base :=
    if ship_kills.length ≥ 2 then
      let check := lastN 3 ship_kills
      let kt := check.map (fun k => killTimeMs k now)
      let is_burst := consecAny (fun a b => decide (b - a < 120000)) kt
      let skip :=
        if is_burst then
          let corps := check.filterMap (fun k =>
            if truthyN k.killmail.victim.corporation_id then
              some (k.killmail.victim.corporation_id.getD 0)
            else none)
          let allis := check.filterMap (fun k =>
            if truthyN k.killmail.victim.alliance_id then
              some (k.killmail.victim.alliance_id.getD 0)
            else none)
          (corps.length = check.length && (uniqList corps).length = 1)
            || (allis.length = check.length && (uniqList allis).length = 1)
        else false
      if !skip && check.length ≥ 2 then
        match check.getLast? with
        | some lastKill =>
          let latest := attackerCharSet lastKill
          let consistency : Q :=
            (check.dropLast.map (fun pk =>
              let prev := attackerCharSet pk
              let overlap := (interList latest prev).length
              if overlap ≥ max 2 (prev.length / 3) && overlap ≥ 2 then
                (⟨15, 100⟩ : Q)
              else 0)).sum
          base + min MAX_CONSISTENCY_BONUS consistency
        | none => base
      else base
    else base
  let base :=
    if ship_kills.length ≥ 2 then
      let ktimes := ship_kills.map (fun k => killTimeMs k now)
      let spaced : Q := spacedSum ktimes
      base + min MAX_WIDELY_SPACED_BONUS spaced
    else base
  let base :=
    if !pod_kills.isEmpty then
      let orphan := (pod_kills.filter (fun pk => !isFollowupPod pk ship_kills)).length
      let effective_pod : Q :=
        Q.ofNat orphan + Q.ofNat (pod_kills.length - orphan) * (⟨1, 2⟩ : Q)
      base + min MAX_POD_BONUS (effective_pod * POD_BONUS_PER_KILL)
    else base
  let base := max 0 (min OVERALL_PROB_CAP base)
  let decay_start_min : Q := Q.ofInt DECAY_START_MS / 60000
  let base :=
    if minutes_since > decay_start_min then
      base * (1 - min 1 ((minutes_since - decay_start_min) * (⟨10, 100⟩ : Q)))
    else base
  max 0 (min OVERALL_PROB_CAP base)
where
  /-- Sum of `WIDELY_SPACED_BONUS` over consecutive gaps above 5 minutes. -/
  spacedSum : List Int → Q
    | [] => 0
    | [_] => 0
    | a :: b :: t => (if b - a > 300000 then WIDELY_SPACED_BONUS else 0) + spacedSum (b :: t)

/-- Stages 5-12 of `_calculate_camp_probability`. -/
def probLateStages (c : Crew) (now : Int) (ship_kills pod_kills : List Killmail)
    (minutes_since : Q) (base2 : Q) : Int × Int :=
  finalizeProb c.max_probability (probBaseLate c now ship_kills pod_kills minutes_since base2)

/-- `ActivityManager._calculate_camp_probability`.  Returns
`some (probability, max_probability)` on normal completion and `none` when
the smartbomb-bonus stage raises `AttributeError` (calling `.get` on the
`SMARTBOMB_SHIPS` frozenset), which happens exactly when `has_smartbombs`
is set and some kill of the crew has at least one attacker. -/
def calcCampProbability (c : Crew) (now : Int) : Option (Int × Int) :=
  if !truthyS c.stargate_name then some (0, c.max_probability)
  else
    let all_kills := c.kills
    let kills_for_prob := all_kills.filter probKillFilter
    if kills_for_prob.isEmpty then some (0, c.max_probability)
    else
      let gate_kills := kills_for_prob.filter isGateCampKill
      if gate_kills.isEmpty then some (0, c.max_probability)
      else
        let relevant := gate_kills
        let ship_kills :=
          stableSort (fun a b => decide (killTimeMs a now ≤ killTimeMs b now))
            (relevant.filter (fun k =>
              !(k.killmail.victim.ship_type_id = some CAPSULE_ID)))
        let pod_kills := relevant.filter (fun k =>
          k.killmail.victim.ship_type_id = some CAPSULE_ID)
        if ship_kills.isEmpty && pod_kills.isEmpty then some (0, c.max_probability)
        else
          let minutes_since : Q := Q.ofInt (now - c.last_kill_at) / 60000
          let base : Q := 0
          let base :=
            if ship_kills.length > 1 then
              let kill_times := ship_kills.map (fun k => killTimeMs k now)
              let camp_age : Q := Q.ofInt (now - c.created_at) / 60000
              let has_burst := consecAny (fun a b => decide (b - a < 120000)) kill_times
              if camp_age ≤ 15 && has_burst then base - BURST_PENALTY else base
            else base
          let threat_score : Q :=
            (relevant.map (fun k =>
              (k.killmail.attackers.map (fun a =>
                match a.ship_type_id with
                | some st =>
                  if st ≠ 0 then
                    match dictGet THREAT_SHIPS st with
                    | some w => w
                    | none => 0
                  else 0
                | none => 0)).sum)).sum
          let base := base + min THREAT_SCORE_CAP threat_score
          if c.has_smartbombs then
            if all_kills.any (fun k => !k.killmail.attackers.isEmpty) then none
            else
              some (probLateStages c now ship_kills pod_kills minutes_since (base + (⟨16, 100⟩ : Q)))
          else
            some (probLateStages c now ship_kills pod_kills minutes_since base)

/-! ### Crew matching -/

/-- The adjacency relation injected through `set_system_connectivity`;
missing systems (including `None`) are simply non-adjacent, which the
abstract relation subsumes. -/
abbrev Adjacency := Option Int → Option Int → Bool

/-- The per-crew score of `_find_all_matching_crews` (identical to the
scoring in `_find_matching_crew`). -/
def crewMatchScore (adj : Adjacency) (c : Crew)
    (attacker_ids corp_ids alliance_ids : List Nat)
    (system_id : Option Int) (kill_time : Int) : Q :=
  let score : Q := 0
  let score :=
    let active_member_ids := (activeIdleMembers c).map Prod.fst
    if !active_member_ids.isEmpty && !attacker_ids.isEmpty then
      let overlap := interList active_member_ids attacker_ids
      if !overlap.isEmpty then
        score + Q.ofNat overlap.length / Q.ofNat attacker_ids.length * CHAR_OVERLAP_WEIGHT
          + Q.ofNat overlap.length / Q.ofNat active_member_ids.length * (⟨10, 100⟩ : Q)
      else score
    else score
  let score :=
    if truthyN c.anchor_alliance_id && !alliance_ids.isEmpty then
      if c.anchor_alliance_id.getD 0 ∈ alliance_ids then score + CORP_ALLIANCE_WEIGHT
      else if !(interList c.anchor_corp_ids corp_ids).isEmpty then
        score + CORP_ALLIANCE_WEIGHT * (⟨60, 100⟩ : Q)
      else score
    else if truthyN c.anchor_corp_id && !corp_ids.isEmpty then
      if c.anchor_corp_id.getD 0 ∈ corp_ids then score + CORP_ALLIANCE_WEIGHT * (⟨80, 100⟩ : Q)
      else score
    else score
  let score :=
    if c.current_system_id = system_id then score + SPATIAL_WEIGHT
    else if adj c.current_system_id system_id then score + SPATIAL_WEIGHT * (⟨50, 100⟩ : Q)
    else score
  let score :=
    let time_since := kill_time - c.last_kill_at
    if time_since < 10 * 60000 then score + TEMPORAL_WEIGHT
    else if time_since < 30 * 60000 then score + TEMPORAL_WEIGHT * (⟨50, 100⟩ : Q)
    else if time_since > 120 * 60000 then score - (⟨15, 100⟩ : Q)
    else score
  score

/-- `ActivityManager._find_all_matching_crews`: all crews scoring at least
`MATCH_THRESHOLD`, sorted by score descending (stable). -/
def findAllMatchingCrews (adj : Adjacency) (crews : List (String × Crew))
    (attacker_ids corp_ids alliance_ids : List Nat)
    (system_id : Option Int) (kill_time : Int) : List (String × Q) :=
  stableSort (fun a b => decide (b.2 ≤ a.2))
    (crews.filterMap (fun p =>
      let sc := crewMatchScore adj p.2 attacker_ids corp_ids alliance_ids system_id kill_time
      if sc ≥ MATCH_THRESHOLD then some (p.1, sc) else none))

/-! ### Crew merging (`_merge_crews`), phase by phase -/

/-- Record the merge pseudo-transition on the primary. -/
def mergeTransitionRecord (p donor : Crew) (merge_time : Int)
    (merge_system_name : String) : Crew :=
  { p with
    transitions := p.transitions ++
      [{ tfrom := "merge(" ++ donor.id ++ ":" ++ donor.classification ++ ")"
         tto := p.classification
         time := merge_time
         systemId := p.current_system_id
         systemName := merge_system_name
         killId := none }] }

/-- Merge kill lists: donor kills deduplicated by `killID`, chronologically
sorted; `total_value` recomputed from the merged list when anything new
arrived. -/
def mergeKillsPhase (p donor : Crew) (now : Int) : Crew :=
  let existingIds := p.kills.map (fun k => k.killID)
  let new_kills := donor.kills.filter (fun k => !existingIds.contains k.killID)
  if new_kills.isEmpty then p
  else
    let merged := stableSort (fun a b => decide (killTimeMs a now ≤ killTimeMs b now))
      (p.kills ++ new_kills)
    { p with
      kills := merged
      total_value := (merged.map (fun k => k.zkb.totalValue)).sum }

/-- Merge one donor member into the primary's member map. -/
def mergeOneMember (members : List (Nat × MemberState)) (cid : Nat)
    (dm : MemberState) : List (Nat × MemberState) :=
  match dictGet members cid with
  | some pm =>
    let pm :=
      if dm.last_seen > pm.last_seen then
        { pm with last_seen := dm.last_seen, status := dm.status }
      else pm
    let pm := { pm with
      kill_count := pm.kill_count + dm.kill_count
      ship_type_ids := unionList pm.ship_type_ids dm.ship_type_ids
      first_seen := min pm.first_seen dm.first_seen }
    let pm := if truthyN dm.corp_id then { pm with corp_id := dm.corp_id } else pm
    let pm := if truthyN dm.alliance_id then { pm with alliance_id := dm.alliance_id } else pm
    dictSet members cid pm
  | none => dictSet members cid dm

/-- Merge member maps and per-member ship sets. -/
def mergeMembersPhase (p donor : Crew) : Crew :=
  let members := donor.members.foldl (fun acc q => mergeOneMember acc q.1 q.2) p.members
  let pms := donor.per_member_ships.foldl
    (fun acc q =>
      match dictGet acc q.1 with
      | some ships => dictSet acc q.1 (unionList ships q.2)
      | none => dictSet acc q.1 q.2)
    p.per_member_ships
  { p with members := members, per_member_ships := pms }

/-- Merge spatial history: dedup by `(id, time)`, sort by time, union the
visited-system id sets. -/
def mergeSpatialPhase (p donor : Crew) : Crew :=
  let existing := p.systems_visited.map (fun s => (s.id, s.time))
  let newVisits := donor.systems_visited.filter (fun sv => !existing.contains (sv.id, sv.time))
  let merged := stableSort (fun a b => decide (a.time ≤ b.time))
    (p.systems_visited ++ newVisits)
  { p with
    systems_visited := merged
    visited_system_ids := unionList p.visited_system_ids donor.visited_system_ids }

/-- Merge flags, timing, transitions and the session link. -/
def mergeFlagsTimingPhase (p donor : Crew) : Crew :=
  let p := if donor.has_smartbombs then { p with has_smartbombs := true } else p
  let p := { p with gate_kill_count := p.gate_kill_count + donor.gate_kill_count }
  let p :=
    if truthyS donor.stargate_name && !truthyS p.stargate_name then
      { p with stargate_name := donor.stargate_name }
    else p
  let p := { p with
    created_at := min p.created_at donor.created_at
    last_kill_at := max p.last_kill_at donor.last_kill_at
    last_activity_at := max p.last_activity_at donor.last_activity_at
    max_probability := max p.max_probability donor.max_probability }
  let p := { p with
    transitions := stableSort (fun a b => decide (a.time ≤ b.time))
      (p.transitions ++ donor.transitions) }
  if !truthyS p.prev_session_id && donor.kills.length ≥ CREW_MIN_KILLS_TO_SAVE then
    { p with prev_session_id := some donor.id }
  else p

/-- The post-merge from-scratch recount of effective gate kills. -/
def countGateKillsMerged (kills : List Killmail) (now : Int) : Nat :=
  kills.foldl
    (fun acc k =>
      if isGateCampKill k then
        if !(k.killmail.victim.ship_type_id = some CAPSULE_ID) then acc + 1
        else if !isFollowupPod k
            (kills.filter (fun ek => killTimeMs ek now < killTimeMs k now)) then
          acc + 1
        else acc
      else acc)
    0

/-- `ActivityManager._merge_crews`: absorb `donor` into `primary`. -/
def mergeCrews (primary donor : Crew) (merge_time : Int)
    (merge_system_name : String) (now : Int) : Crew :=
  let p := mergeTransitionRecord primary donor merge_time merge_system_name
  let p := mergeKillsPhase p donor now
  let p := mergeMembersPhase p donor
  let p := mergeSpatialPhase p donor
  let p := mergeFlagsTimingPhase p donor
  let p := { p with gate_kill_count := countGateKillsMerged p.kills now }
  gateRatioCheck p

/-! ### Engine state and the two driver operations -/

structure Engine where
  crews : List (String × Crew) := []
  expired : List Crew := []
  deriving DecidableEq, Repr

/-- `ActivityManager._record_transition`. -/
def recordTransition (c : Crew) (prev_class : String) (kill_time : Int)
    (system_id : Option Int) (system_name : String) (kill_id : Option Nat) : Crew :=
  { c with
    transitions := c.transitions ++
      [{ tfrom := prev_class, tto := c.classification, time := kill_time
         systemId := system_id, systemName := system_name, killId := kill_id }]
    classification_history := c.classification_history ++
      [{ classification := c.classification, time := kill_time
         systemId := system_id, systemName := system_name }] }

/-- Steps 4-5 of `process_killmail` once the probability computation has
returned: store probability, derive the classification, and record a
transition if it changed. -/
def finishPostProb (c : Crew) (k : Killmail) (kill_time : Int)
    (system_id : Option Int) (system_name : String) (pm : Int × Int) : Crew :=
  let c := { c with probability := pm.1, max_probability := pm.2 }
  let prev_class := c.classification
  let c := { c with classification := deriveClassification c }
  if c.classification ≠ prev_class then
    recordTransition c prev_class kill_time system_id system_name k.killID
  else c

/-- Steps of `process_killmail` that run after `_update_spatial_state` on
the selected crew: the smartbomb flag, the probability computation (which
may raise, see `calcCampProbability`), classification and the transition
record. -/
def finishCrewUpdate (c : Crew) (k : Killmail) (kill_time : Int) (now : Int)
    (system_id : Option Int) (system_name : String) : Crew :=
  let c := if killHasSmartbombWeapon k then { c with has_smartbombs := true } else c
  match calcCampProbability c now with
  | none => c
  | some pm => finishPostProb c k kill_time system_id system_name pm

/-- Steps 3-5 of `process_killmail` applied to the selected crew. -/
def updateCrewWithKill (crew : Crew) (k : Killmail) (kill_time : Int) (now : Int)
    (system_id : Option Int) (system_name : String) (region_name : Option String) : Crew :=
  finishCrewUpdate
    (updateSpatialState
      (updateAnchor
        (updateMembersFromKill (addKillToCrew crew k kill_time) k.killmail kill_time))
      k system_id system_name region_name kill_time)
    k kill_time now system_id system_name

/-- One donor absorption step of the merge loop in `process_killmail`. -/
def mergeFoldStep (kill_time : Int) (system_name : String) (now : Int)
    (acc : Crew × List (String × Crew)) (dm : String × Q) :
    Crew × List (String × Crew) :=
  match dictGet acc.2 dm.1 with
  | some donor =>
    (mergeCrews acc.1 donor kill_time system_name now, dictDel acc.2 dm.1)
  | none => acc

/-- Kill count of a crew id in the registry (`len(self._crews[cid].kills)`). -/
def killsOf (crews : List (String × Crew)) (cid : String) : Nat :=
  match dictGet crews cid with
  | some c => c.kills.length
  | none => 0

/-- The `system_name` computed at the top of `process_killmail`
(`celestial_data.get("solarsystemname") or str(system_id)`). -/
def eventSystemName (k : Killmail) : String :=
  match k.pinpoints.celestialData.solarsystemname with
  | some nm => if nm = "" then pyStrI k.killmail.solar_system_id else nm
  | none => pyStrI k.killmail.solar_system_id

/-- `ActivityManager.process_killmail`.  `now` is the wall clock and
`newId` the id `_generate_crew_id` would produce for a new crew. -/
def processKillmail (adj : Adjacency) (s : Engine) (k : Killmail) (now : Int)
    (newId : String) : Engine :=
  let kill_time := killTimeMs k now
  let km := k.killmail
  let system_id := km.solar_system_id
  let system_name := eventSystemName k
  let region_name := k.pinpoints.celestialData.regionname
  let info := extractAttackerInfo km
  let attacker_ids := info.1
  let corp_ids := info.2.1
  let alliance_ids := info.2.2
  if attacker_ids.isEmpty then s
  else
    let matchList := findAllMatchingCrews adj s.crews attacker_ids corp_ids
      alliance_ids system_id kill_time
    if matchList.length ≥ 2 then
      match stableSort (fun a b => decide (killsOf s.crews b.1 ≤ killsOf s.crews a.1)) matchList with
      | [] => s
      | (pid, _) :: rest =>
        match dictGet s.crews pid with
        | none => s
        | some p0 =>
          let st := rest.foldl (mergeFoldStep kill_time system_name now) (p0, s.crews)
          let final := updateCrewWithKill st.1 k kill_time now system_id system_name region_name
          { s with crews := dictSet st.2 pid final }
    else
      match matchList with
      | (cid, _) :: _ =>
        match dictGet s.crews cid with
        | none => s
        | some c0 =>
          let final := updateCrewWithKill c0 k kill_time now system_id system_name region_name
          { s with crews := dictSet s.crews cid final }
      | [] =>
        let c0 := newCrew newId system_id system_name region_name kill_time
        let final := updateCrewWithKill c0 k kill_time now system_id system_name region_name
        { s with crews := dictSet s.crews newId final }

/-- The classes that use the long (`CAMP_TIMEOUT_MS`) expiry timeout. -/
def campTimeoutClasses : List String :=
  ["camp", "solo_camp", "smartbomb", "roaming_camp", "battle"]

/-- The expiry timeout applied to a crew in `update_activities` (and in
`get_active_activities`). -/
def crewTimeoutMs (c : Crew) : Int :=
  if c.classification ∈ campTimeoutClasses then CAMP_TIMEOUT_MS else ROAM_TIMEOUT_MS

/-- Outcome of one crew's processing inside `update_activities`. -/
inductive TickStep where
  | expired (archived : Bool)
  | dissolved (c1 : Crew)
  | keep (c2 : Crew) (changed : Bool)
  | crashed (c1 : Crew)
  deriving Repr

/-- The probability / classification refresh applied to a kept crew in
`update_activities`. -/
def tickKeepForm (c1 : Crew) (pm : Int × Int) : Crew :=
  let c2 := { c1 with probability := pm.1, max_probability := pm.2 }
  { c2 with classification := deriveClassification c2 }

/-- The per-crew body of the `update_activities` loop. -/
def tickCrew (c : Crew) (now : Int) : TickStep :=
  if now - c.last_activity_at > crewTimeoutMs c then
    .expired (c.kills.length ≥ CREW_MIN_KILLS_TO_SAVE)
  else
    let c1 := updateMemberStatuses c now
    if isDissolving c1 && c1.kills.length ≥ CREW_MIN_KILLS_TO_SAVE then .dissolved c1
    else
      match calcCampProbability c1 now with
      | none => .crashed c1
      | some pm =>
        let c2 := tickKeepForm c1 pm
        .keep c2 (decide (c2.probability ≠ c.probability)
          || decide (c2.classification ≠ c.classification))

/-- The `update_activities` sweep.  On normal completion the registry is
replaced by the kept crews and the changed flag is `some _`; when the
probability computation raises mid-sweep the replacement assignment never
runs, so every key stays in the registry (with the in-place per-crew
mutations applied so far) and the result flag is `none`. -/
def updateActivitiesGo (now : Int) :
    List (String × Crew) → List (String × Crew) → List (String × Crew) →
    List Crew → Bool → List (String × Crew) × List Crew × Option Bool
  | [], _processed, keep, q, ch => (keep, q, some ch)
  | (cid, c) :: rest, processed, keep, q, ch =>
    match tickCrew c now with
    | .expired arch =>
      updateActivitiesGo now rest (processed ++ [(cid, c)]) keep
        (if arch then q ++ [c] else q) true
    | .dissolved c1 =>
      updateActivitiesGo now rest (processed ++ [(cid, c1)]) keep (q ++ [c1]) true
    | .keep c2 chg =>
      updateActivitiesGo now rest (processed ++ [(cid, c2)]) (keep ++ [(cid, c2)]) q
        (ch || chg)
    | .crashed c1 => (processed ++ [(cid, c1)] ++ rest, q, none)

/-- `ActivityManager.update_activities`.  Returns the new engine state and
`some changed` on normal completion, `none` when the sweep raised. -/
def updateActivities (s : Engine) (now : Int) : Engine × Option Bool :=
  let r := updateActivitiesGo now s.crews [] [] [] false
  ({ crews := r.1, expired := s.expired ++ r.2.1 }, r.2.2)

/-- `ActivityManager.pop_expired`: drain and clear the archive queue. -/
def popExpired (s : Engine) : Engine × List Crew :=
  ({ s with expired := [] }, s.expired)

/-- Engine states reachable from a fresh `ActivityManager()` by any
sequence of killmail ingests, periodic sweeps and queue drains. -/
inductive Reachable (adj : Adjacency) : Engine → Prop where
  | init : Reachable adj {}
  | ingest {s} (k : Killmail) (now : Int) (newId : String) :
      Reachable adj s → Reachable adj (processKillmail adj s k now newId)
  | tick {s} (now : Int) :
      Reachable adj s → Reachable adj (updateActivities s now).1
  | drain {s} :
      Reachable adj s → Reachable adj (popExpired s).1

/-! ## Verification layer -/

/-! ### Association-list lemmas -/

theorem mem_dictSet [DecidableEq κ] {l : List (κ × β)} {k : κ} {v : β} :
    ∀ p ∈ dictSet l k v, p ∈ l ∨ p = (k, v) := by
  induction l with
  | nil => intro p hp; simp [dictSet] at hp; simp [hp]
  | cons h t ih =>
    intro p hp
    by_cases hk : h.1 = k
    · simp [dictSet, hk] at hp
      rcases hp with hp | hp
      · right; rw [hp, ← hk]
      · left; exact List.mem_cons_of_mem _ hp
    · rw [show (h :: t : List (κ × β)) = (h.1, h.2) :: t from rfl] at hp
      simp only [dictSet, if_neg hk] at hp
      rcases List.mem_cons.1 hp with hp | hp
      · left; rw [hp]; exact List.mem_cons_self _ _
      · rcases ih p hp with h' | h'
        · left; exact List.mem_cons_of_mem _ h'
        · right; exact h'

theorem mem_dictDel [DecidableEq κ] {l : List (κ × β)} {k : κ} :
    ∀ p ∈ dictDel l k, p ∈ l := by
  induction l with
  | nil => intro p hp; simp [dictDel] at hp
  | cons h t ih =>
    intro p hp
    rw [show (h :: t : List (κ × β)) = (h.1, h.2) :: t from rfl] at hp
    simp only [dictDel] at hp
    by_cases hk : h.1 = k
    · rw [if_pos hk] at hp; exact List.mem_cons_of_mem _ hp
    · rw [if_neg hk] at hp
      rcases List.mem_cons.1 hp with hp | hp
      · rw [hp]; exact List.mem_cons_self _ _
      · exact List.mem_cons_of_mem _ (ih p hp)

theorem dictGet_mem [DecidableEq κ] {l : List (κ × β)} {k : κ} {v : β}
    (h : dictGet l k = some v) : (k, v) ∈ l := by
  induction l with
  | nil => simp [dictGet] at h
  | cons hd t ih =>
    rw [show (hd :: t : List (κ × β)) = (hd.1, hd.2) :: t from rfl] at h ⊢
    simp only [dictGet] at h
    by_cases hk : hd.1 = k
    · rw [if_pos hk] at h
      rw [← hk, Option.some_inj.1 h]
      exact List.mem_cons_self _ _
    · rw [if_neg hk] at h
      exact List.mem_cons_of_mem _ (ih h)

theorem dictGet_dictSet_self [DecidableEq κ] {l : List (κ × β)} {k : κ} {v : β} :
    dictGet (dictSet l k v) k = some v := by
  induction l with
  | nil => simp [dictSet, dictGet]
  | cons hd t ih =>
    by_cases hk : hd.1 = k
    · rw [show (hd :: t : List (κ × β)) = (hd.1, hd.2) :: t from rfl]
      simp only [dictSet, if_pos hk, dictGet]
    · rw [show (hd :: t : List (κ × β)) = (hd.1, hd.2) :: t from rfl]
      simp only [dictSet, if_neg hk, dictGet]
      exact ih

/-! ### Stable-sort lemmas -/

theorem stableInsert_perm (le : α → α → Bool) (x : α) :
    ∀ l : List α, (stableInsert le x l).Perm (x :: l) := by
  intro l
  induction l with
  | nil => simp [stableInsert]
  | cons y ys ih =>
    simp only [stableInsert]
    by_cases h : le x y
    · rw [if_pos h]
    · rw [if_neg h]
      exact (List.Perm.cons y ih).trans (List.Perm.swap x y ys)

theorem stableSort_perm (le : α → α → Bool) :
    ∀ l : List α, (stableSort le l).Perm l := by
  intro l
  induction l with
  | nil => simp [stableSort]
  | cons x xs ih =>
    simp only [stableSort]
    exact (stableInsert_perm le x (stableSort le xs)).trans (List.Perm.cons x ih)

theorem mem_stableSort (le : α → α → Bool) (l : List α) (a : α) :
    a ∈ stableSort le l ↔ a ∈ l :=
  (stableSort_perm le l).mem_iff

theorem pairwise_stableInsert (le : α → α → Bool)
    (htrans : ∀ a b c, le a b = true → le b c = true → le a c = true)
    (htot : ∀ a b, le a b = true ∨ le b a = true) (x : α) :
    ∀ l : List α, l.Pairwise (fun a b => le a b = true) →
      (stableInsert le x l).Pairwise (fun a b => le a b = true) := by
  intro l
  induction l with
  | nil => intro _; simp [stableInsert]
  | cons y ys ih =>
    intro hp
    rcases List.pairwise_cons.1 hp with ⟨hy, hys⟩
    simp only [stableInsert]
    by_cases h : le x y = true
    · rw [if_pos h]
      refine List.pairwise_cons.2 ⟨?_, hp⟩
      intro b hb
      rcases List.mem_cons.1 hb with hb | hb
      · rw [hb]; exact h
      · exact htrans x y b h (hy b hb)
    · rw [if_neg h]
      refine List.pairwise_cons.2 ⟨?_, ih hys⟩
      intro b hb
      have hb' := (stableInsert_perm le x ys).mem_iff.1 hb
      rcases List.mem_cons.1 hb' with hb' | hb'
      · rw [hb']
        rcases htot x y with hxy | hyx
        · exact absurd hxy h
        · exact hyx
      · exact hy b hb'

theorem Q.div_def (a b : Q) : a / b = ⟨a.num * b.den, a.den * b.num.toNat⟩ := rfl

theorem Q.lt_def (a b : Q) :
    (a < b) ↔ a.num * (b.den : Int) < b.num * (a.den : Int) := Iff.rfl

theorem qlt_ofNat_half (g e : Nat) :
    (Q.ofNat g < Q.ofNat e / 2) ↔ 2 * (g : Int) < (e : Int) := by
  rw [Q.lt_def, Q.div_def]
  show (g : Int) * (((1 : Nat) * ((2 : Int).toNat) : Nat) : Int) < ((e : Int) * ((1 : Nat) : Int)) * (((1:Nat)) : Int) ↔ _
  norm_num
  omega

theorem pairwise_stableSort (le : α → α → Bool)
    (htrans : ∀ a b c, le a b = true → le b c = true → le a c = true)
    (htot : ∀ a b, le a b = true ∨ le b a = true) :
    ∀ l : List α, (stableSort le l).Pairwise (fun a b => le a b = true) := by
  intro l
  induction l with
  | nil => simp [stableSort]
  | cons x xs ih =>
    simp only [stableSort]
    exact pairwise_stableInsert le htrans htot x _ ih

/-! ### Per-crew invariants -/

/-- Claim C3's per-crew property: when a stargate is pinned, the effective
gate-kill count accounts for at least half (rounded up) of the effective
kills. -/
def gateInv (c : Crew) : Prop :=
  truthyS c.stargate_name = true → (countEffectiveKills c + 1) / 2 ≤ c.gate_kill_count

/-- Claim C4's per-crew property: a positive probability requires a pinned
stargate. -/
def probInv (c : Crew) : Prop :=
  0 < c.probability → truthyS c.stargate_name = true

theorem gateInv_congr {a b : Crew} (hk : a.kills = b.kills)
    (hg : a.gate_kill_count = b.gate_kill_count)
    (hs : a.stargate_name = b.stargate_name) (h : gateInv b) : gateInv a := by
  unfold gateInv countEffectiveKills at *
  rw [hk, hg, hs]
  exact h

theorem gateInv_gateRatioCheck (c : Crew) : gateInv (gateRatioCheck c) := by
  unfold gateRatioCheck
  dsimp only
  split
  next _h => intro ht; simp [truthyS] at ht
  next h =>
    intro _
    rw [Bool.and_eq_true, decide_eq_true_eq, decide_eq_true_eq, not_and] at h
    by_cases he : 0 < countEffectiveKills c
    · have := h he
      rw [qlt_ofNat_half] at this
      omega
    · omega

theorem gateInv_updateSpatialState (c : Crew) (k : Killmail) (sid : Option Int)
    (sn : String) (rn : Option String) (t : Int) :
    gateInv (updateSpatialState c k sid sn rn t) := by
  unfold updateSpatialState
  exact gateInv_gateRatioCheck _

theorem gateInv_mergeCrews (p d : Crew) (t : Int) (sn : String) (now : Int) :
    gateInv (mergeCrews p d t sn now) := by
  unfold mergeCrews
  exact gateInv_gateRatioCheck _

/-! ### Field-preservation lemmas -/

theorem finishPostProb_fields (c : Crew) (k : Killmail) (kt : Int)
    (sid : Option Int) (sn : String) (pm : Int × Int) :
    (finishPostProb c k kt sid sn pm).kills = c.kills ∧
    (finishPostProb c k kt sid sn pm).gate_kill_count = c.gate_kill_count ∧
    (finishPostProb c k kt sid sn pm).stargate_name = c.stargate_name ∧
    (finishPostProb c k kt sid sn pm).members = c.members ∧
    (finishPostProb c k kt sid sn pm).total_value = c.total_value ∧
    (finishPostProb c k kt sid sn pm).last_kill_at = c.last_kill_at ∧
    (finishPostProb c k kt sid sn pm).last_activity_at = c.last_activity_at ∧
    (finishPostProb c k kt sid sn pm).probability = pm.1 ∧
    (finishPostProb c k kt sid sn pm).max_probability = pm.2 := by
  unfold finishPostProb recordTransition
  dsimp only
  split <;> exact ⟨rfl, rfl, rfl, rfl, rfl, rfl, rfl, rfl, rfl⟩

theorem finishCrewUpdate_gateFields (c : Crew) (k : Killmail) (kt now : Int)
    (sid : Option Int) (sn : String) :
    (finishCrewUpdate c k kt now sid sn).kills = c.kills ∧
    (finishCrewUpdate c k kt now sid sn).gate_kill_count = c.gate_kill_count ∧
    (finishCrewUpdate c k kt now sid sn).stargate_name = c.stargate_name := by
  unfold finishCrewUpdate
  dsimp only
  split <;> rename_i hcalc
  · split <;> exact ⟨rfl, rfl, rfl⟩
  · rcases finishPostProb_fields
      (if killHasSmartbombWeapon k then { c with has_smartbombs := true } else c)
      k kt sid sn _ with ⟨h1, h2, h3, _⟩
    have hc1 :
        (if killHasSmartbombWeapon k then { c with has_smartbombs := true } else c).kills
            = c.kills ∧
        (if killHasSmartbombWeapon k then { c with has_smartbombs := true } else c).gate_kill_count
            = c.gate_kill_count ∧
        (if killHasSmartbombWeapon k then { c with has_smartbombs := true } else c).stargate_name
            = c.stargate_name := by
      split <;> exact ⟨rfl, rfl, rfl⟩
    exact ⟨h1.trans hc1.1, h2.trans hc1.2.1, h3.trans hc1.2.2⟩

theorem gateInv_finishCrewUpdate (c : Crew) (k : Killmail) (kt now : Int)
    (sid : Option Int) (sn : String) (h : gateInv c) :
    gateInv (finishCrewUpdate c k kt now sid sn) := by
  rcases finishCrewUpdate_gateFields c k kt now sid sn with ⟨h1, h2, h3⟩
  exact gateInv_congr h1 h2 h3 h

theorem gateInv_updateCrewWithKill (crew : Crew) (k : Killmail) (kt now : Int)
    (sid : Option Int) (sn : String) (rn : Option String) :
    gateInv (updateCrewWithKill crew k kt now sid sn rn) := by
  unfold updateCrewWithKill
  exact gateInv_finishCrewUpdate _ k kt now sid sn
    (gateInv_updateSpatialState _ k sid sn rn kt)

/-! ### Probability-computation lemmas -/

theorem finalizeProb_max_ge (maxp : Int) (base : Q) : maxp ≤ (finalizeProb maxp base).2 := by
  unfold finalizeProb
  dsimp only
  split
  · exact le_refl maxp
  · exact le_max_left _ _

theorem calc_unset (c : Crew) (now : Int) (h : truthyS c.stargate_name = false) :
    calcCampProbability c now = some (0, c.max_probability) := by
  unfold calcCampProbability
  rw [h]
  rfl

theorem calc_none_stargate {c : Crew} {now : Int}
    (h : calcCampProbability c now = none) : truthyS c.stargate_name = true := by
  by_cases hs : truthyS c.stargate_name = true
  · exact hs
  · rw [calc_unset c now (by simpa using hs)] at h
    cases h

theorem calc_pos_stargate {c : Crew} {now : Int} {pm : Int × Int}
    (h : calcCampProbability c now = some pm) (hp : 0 < pm.1) :
    truthyS c.stargate_name = true := by
  by_cases hs : truthyS c.stargate_name = true
  · exact hs
  · rw [calc_unset c now (by simpa using hs)] at h
    have : pm = (0, c.max_probability) := (Option.some_inj.1 h).symm
    rw [this] at hp
    exact absurd hp (by norm_num)

theorem probLateStages_max_ge (c : Crew) (now : Int) (sk pk : List Killmail)
    (ms b2 : Q) : c.max_probability ≤ (probLateStages c now sk pk ms b2).2 := by
  unfold probLateStages
  exact finalizeProb_max_ge _ _

theorem calc_max_ge {c : Crew} {now : Int} {pm : Int × Int}
    (h : calcCampProbability c now = some pm) : c.max_probability ≤ pm.2 := by
  unfold calcCampProbability at h
  split at h
  · rw [Option.some_inj.1 h.symm]
  · dsimp only at h
    split at h
    · rw [Option.some_inj.1 h.symm]
    · split at h
      · rw [Option.some_inj.1 h.symm]
      · split at h
        · rw [Option.some_inj.1 h.symm]
        · split at h
          · split at h
            · cases h
            · rw [Option.some_inj.1 h.symm]
              exact probLateStages_max_ge _ _ _ _ _ _
          · rw [Option.some_inj.1 h.symm]
            exact probLateStages_max_ge _ _ _ _ _ _

theorem probInv_finishCrewUpdate (c : Crew) (k : Killmail) (kt now : Int)
    (sid : Option Int) (sn : String) :
    probInv (finishCrewUpdate c k kt now sid sn) := by
  unfold finishCrewUpdate
  dsimp only
  split <;> rename_i hcalc
  · intro _
    exact calc_none_stargate hcalc
  · rcases finishPostProb_fields _ k kt sid sn _ with ⟨_, _, h3, _, _, _, _, h8, _⟩
    intro hp
    rw [h8] at hp
    rw [h3]
    exact calc_pos_stargate hcalc hp

theorem probInv_updateCrewWithKill (crew : Crew) (k : Killmail) (kt now : Int)
    (sid : Option Int) (sn : String) (rn : Option String) :
    probInv (updateCrewWithKill crew k kt now sid sn rn) := by
  unfold updateCrewWithKill
  exact probInv_finishCrewUpdate _ k kt now sid sn

/-! ### Engine-level structure of `process_killmail` -/

theorem mergeFold_sub (kt : Int) (sn : String) (now : Int) :
    ∀ (rest : List (String × Q)) (acc : Crew × List (String × Crew)),
      ∀ p ∈ (rest.foldl (mergeFoldStep kt sn now) acc).2, p ∈ acc.2 := by
  intro rest
  induction rest with
  | nil => intro acc p hp; exact hp
  | cons dm t ih =>
    intro acc p hp
    rw [List.foldl_cons] at hp
    have hstep := ih (mergeFoldStep kt sn now acc dm) p hp
    unfold mergeFoldStep at hstep
    split at hstep
    · exact mem_dictDel p hstep
    · exact hstep

theorem processKillmail_mem (adj : Adjacency) (s : Engine) (k : Killmail)
    (now : Int) (nid : String) :
    ∀ p ∈ (processKillmail adj s k now nid).crews,
      p ∈ s.crews ∨
      ∃ c0 sid sn rn, p.2 = updateCrewWithKill c0 k (killTimeMs k now) now sid sn rn := by
  intro p hp
  unfold processKillmail at hp
  dsimp only at hp
  split at hp
  · exact Or.inl hp
  · split at hp
    · split at hp
      · exact Or.inl hp
      · split at hp
        · exact Or.inl hp
        · rcases mem_dictSet p hp with h | h
          · exact Or.inl (mergeFold_sub _ _ _ _ _ p h)
          · exact Or.inr ⟨_, _, _, _, congrArg Prod.snd h⟩
    · split at hp
      · split at hp
        · exact Or.inl hp
        · rcases mem_dictSet p hp with h | h
          · exact Or.inl h
          · exact Or.inr ⟨_, _, _, _, congrArg Prod.snd h⟩
      · rcases mem_dictSet p hp with h | h
        · exact Or.inl h
        · exact Or.inr ⟨_, _, _, _, congrArg Prod.snd h⟩

/-! ### Engine-level structure of `update_activities` -/

/-- How a surviving crew value relates to its pre-sweep value: unchanged
(expiry path or untouched remainder after a raise), member statuses aged,
or aged plus the probability / classification refresh. -/
def tickRel (c : Crew) (now : Int) (c' : Crew) : Prop :=
  c' = c ∨ c' = updateMemberStatuses c now ∨
  ∃ pm, calcCampProbability (updateMemberStatuses c now) now = some pm ∧
    c' = tickKeepForm (updateMemberStatuses c now) pm

theorem tickCrew_dissolved_eq {c : Crew} {now : Int} {c1 : Crew}
    (h : tickCrew c now = .dissolved c1) : c1 = updateMemberStatuses c now := by
  unfold tickCrew at h
  split at h
  · cases h
  · dsimp only at h
    split at h
    · cases h; rfl
    · split at h <;> cases h

theorem tickCrew_crashed_eq {c : Crew} {now : Int} {c1 : Crew}
    (h : tickCrew c now = .crashed c1) :
    c1 = updateMemberStatuses c now ∧
    calcCampProbability (updateMemberStatuses c now) now = none := by
  unfold tickCrew at h
  split at h
  · cases h
  · dsimp only at h
    split at h
    · cases h
    · split at h <;> rename_i hcalc
      · cases h; exact ⟨rfl, hcalc⟩
      · cases h

theorem tickCrew_keep_eq {c : Crew} {now : Int} {c2 : Crew} {fl : Bool}
    (h : tickCrew c now = .keep c2 fl) :
    ∃ pm, calcCampProbability (updateMemberStatuses c now) now = some pm ∧
      c2 = tickKeepForm (updateMemberStatuses c now) pm := by
  unfold tickCrew at h
  split at h
  · cases h
  · dsimp only at h
    split at h
    · cases h
    · split at h <;> rename_i hcalc
      · cases h
      · cases h; exact ⟨_, hcalc, rfl⟩

theorem updateActivitiesGo_mem (now : Int) :
    ∀ (rem processed keep : List (String × Crew)) (q : List Crew) (ch : Bool),
      ∀ p ∈ (updateActivitiesGo now rem processed keep q ch).1,
        p ∈ processed ∨ p ∈ keep ∨ ∃ qq ∈ rem, p.1 = qq.1 ∧ tickRel qq.2 now p.2 := by
  intro rem
  induction rem with
  | nil => intro processed keep q ch p hp; exact Or.inr (Or.inl hp)
  | cons hd t ih =>
    intro processed keep q ch p hp
    rw [show (hd :: t : List (String × Crew)) = (hd.1, hd.2) :: t from rfl] at hp
    unfold updateActivitiesGo at hp
    split at hp <;> rename_i heq
    · rcases ih _ _ _ _ p hp with h | h | ⟨qq, hq, h1, h2⟩
      · rcases List.mem_append.1 h with h | h
        · exact Or.inl h
        · rcases List.mem_singleton.1 h with h
          exact Or.inr (Or.inr ⟨(hd.1, hd.2), List.mem_cons_self _ _,
            by rw [h], Or.inl (by rw [h])⟩)
      · exact Or.inr (Or.inl h)
      · exact Or.inr (Or.inr ⟨qq, List.mem_cons_of_mem _ hq, h1, h2⟩)
    · rcases ih _ _ _ _ p hp with h | h | ⟨qq, hq, h1, h2⟩
      · rcases List.mem_append.1 h with h | h
        · exact Or.inl h
        · rcases List.mem_singleton.1 h with h
          refine Or.inr (Or.inr ⟨(hd.1, hd.2), List.mem_cons_self _ _, by rw [h], ?_⟩)
          rw [h]
          exact Or.inr (Or.inl (tickCrew_dissolved_eq heq))
      · exact Or.inr (Or.inl h)
      · exact Or.inr (Or.inr ⟨qq, List.mem_cons_of_mem _ hq, h1, h2⟩)
    · rcases ih _ _ _ _ p hp with h | h | ⟨qq, hq, h1, h2⟩
      · rcases List.mem_append.1 h with h | h
        · exact Or.inl h
        · rcases List.mem_singleton.1 h with h
          refine Or.inr (Or.inr ⟨(hd.1, hd.2), List.mem_cons_self _ _, by rw [h], ?_⟩)
          rw [h]
          rcases tickCrew_keep_eq heq with ⟨pm, hc, he⟩
          exact Or.inr (Or.inr ⟨pm, hc, he⟩)
      · rcases List.mem_append.1 h with h | h
        · exact Or.inr (Or.inl h)
        · rcases List.mem_singleton.1 h with h
          refine Or.inr (Or.inr ⟨(hd.1, hd.2), List.mem_cons_self _ _, by rw [h], ?_⟩)
          rw [h]
          rcases tickCrew_keep_eq heq with ⟨pm, hc, he⟩
          exact Or.inr (Or.inr ⟨pm, hc, he⟩)
      · exact Or.inr (Or.inr ⟨qq, List.mem_cons_of_mem _ hq, h1, h2⟩)
    · dsimp only at hp
      rcases List.mem_append.1 hp with h | h
      · rcases List.mem_append.1 h with h | h
        · exact Or.inl h
        · rcases List.mem_singleton.1 h with h
          refine Or.inr (Or.inr ⟨(hd.1, hd.2), List.mem_cons_self _ _, by rw [h], ?_⟩)
          rw [h]
          exact Or.inr (Or.inl (tickCrew_crashed_eq heq).1)
      · exact Or.inr (Or.inr ⟨p, List.mem_cons_of_mem _ h, rfl, Or.inl rfl⟩)

theorem updateActivities_mem (s : Engine) (now : Int) :
    ∀ p ∈ (updateActivities s now).1.crews,
      ∃ qq ∈ s.crews, p.1 = qq.1 ∧ tickRel qq.2 now p.2 := by
  intro p hp
  have := updateActivitiesGo_mem now s.crews [] [] [] false p hp
  rcases this with h | h | h
  · cases h
  · cases h
  · exact h

/-! ### Invariant transfer across the sweep -/

theorem tickRel_gateInv {c c' : Crew} {now : Int}
    (h : tickRel c now c') (hc : gateInv c) : gateInv c' := by
  rcases h with h | h | ⟨pm, _, h⟩
  · rw [h]; exact hc
  · rw [h]; exact gateInv_congr rfl rfl rfl hc
  · rw [h]; exact gateInv_congr rfl rfl rfl hc

theorem tickKeepForm_probability (c1 : Crew) (pm : Int × Int) :
    (tickKeepForm c1 pm).probability = pm.1 := rfl

theorem tickKeepForm_max_probability (c1 : Crew) (pm : Int × Int) :
    (tickKeepForm c1 pm).max_probability = pm.2 := rfl

theorem tickKeepForm_stargate_name (c1 : Crew) (pm : Int × Int) :
    (tickKeepForm c1 pm).stargate_name = c1.stargate_name := rfl

theorem updateMemberStatuses_stargate_name (c : Crew) (now : Int) :
    (updateMemberStatuses c now).stargate_name = c.stargate_name := rfl

theorem updateMemberStatuses_probability (c : Crew) (now : Int) :
    (updateMemberStatuses c now).probability = c.probability := rfl

theorem updateMemberStatuses_max_probability (c : Crew) (now : Int) :
    (updateMemberStatuses c now).max_probability = c.max_probability := rfl

theorem tickRel_probInv {c c' : Crew} {now : Int}
    (h : tickRel c now c') (hc : probInv c) : probInv c' := by
  rcases h with h | h | ⟨pm, hcalc, h⟩
  · rw [h]; exact hc
  · rw [h]
    unfold probInv
    rw [updateMemberStatuses_probability, updateMemberStatuses_stargate_name]
    exact hc
  · rw [h]
    unfold probInv
    rw [tickKeepForm_probability, tickKeepForm_stargate_name,
      updateMemberStatuses_stargate_name]
    intro hp
    have := calc_pos_stargate hcalc hp
    rw [updateMemberStatuses_stargate_name] at this
    exact this

/-! ### `max_probability` monotonicity lemmas -/

theorem addKillToCrew_max (c : Crew) (k : Killmail) (t : Int) :
    (addKillToCrew c k t).max_probability = c.max_probability := by
  unfold addKillToCrew
  split <;> rfl

theorem memberStep_max (t : Int) (c : Crew) (a : Attacker) :
    (memberStep t c a).max_probability = c.max_probability := by
  unfold memberStep
  split
  · rfl
  · split
    · rfl
    · rfl

theorem foldl_memberStep_max (t : Int) :
    ∀ (l : List Attacker) (c : Crew),
      (List.foldl (memberStep t) c l).max_probability = c.max_probability := by
  intro l
  induction l with
  | nil => intro c; rfl
  | cons a tl ih => intro c; rw [List.foldl_cons, ih, memberStep_max]

theorem updateMembersFromKill_max (c : Crew) (km : KmData) (t : Int) :
    (updateMembersFromKill c km t).max_probability = c.max_probability := by
  unfold updateMembersFromKill
  exact foldl_memberStep_max t km.attackers c

theorem updateAnchor_max (c : Crew) :
    (updateAnchor c).max_probability = c.max_probability := by
  unfold updateAnchor
  dsimp only
  repeat' split
  all_goals rfl

theorem updateSpatialCore_max (c : Crew) (k : Killmail) (sid : Option Int)
    (sn : String) (rn : Option String) (t : Int) :
    (updateSpatialCore c k sid sn rn t).max_probability = c.max_probability := by
  unfold updateSpatialCore
  dsimp only
  repeat' split
  all_goals rfl

theorem gateRatioCheck_max (c : Crew) :
    (gateRatioCheck c).max_probability = c.max_probability := by
  unfold gateRatioCheck
  dsimp only
  split <;> rfl

theorem finishCrewUpdate_max_ge (c : Crew) (k : Killmail) (kt now : Int)
    (sid : Option Int) (sn : String) :
    c.max_probability ≤ (finishCrewUpdate c k kt now sid sn).max_probability := by
  have hif : (if killHasSmartbombWeapon k then { c with has_smartbombs := true } else c).max_probability
      = c.max_probability := by split <;> rfl
  unfold finishCrewUpdate
  dsimp only
  split <;> rename_i hcalc
  · rw [hif]
  · rcases finishPostProb_fields _ k kt sid sn _ with ⟨_, _, _, _, _, _, _, _, h9⟩
    rw [h9]
    have := calc_max_ge hcalc
    rw [hif] at this
    exact this

theorem updateCrewWithKill_max_ge (crew : Crew) (k : Killmail) (kt now : Int)
    (sid : Option Int) (sn : String) (rn : Option String) :
    crew.max_probability ≤ (updateCrewWithKill crew k kt now sid sn rn).max_probability := by
  unfold updateCrewWithKill updateSpatialState
  have h := finishCrewUpdate_max_ge
    (gateRatioCheck (updateSpatialCore
      (updateAnchor (updateMembersFromKill (addKillToCrew crew k kt) k.killmail kt))
      k sid sn rn kt)) k kt now sid sn
  rw [gateRatioCheck_max, updateSpatialCore_max, updateAnchor_max,
    updateMembersFromKill_max, addKillToCrew_max] at h
  exact h

theorem mergeKillsPhase_max (p d : Crew) (now : Int) :
    (mergeKillsPhase p d now).max_probability = p.max_probability := by
  unfold mergeKillsPhase
  dsimp only
  split <;> rfl

theorem mergeFlagsTimingPhase_max_ge (p d : Crew) :
    p.max_probability ≤ (mergeFlagsTimingPhase p d).max_probability := by
  unfold mergeFlagsTimingPhase
  dsimp only
  repeat' split
  all_goals exact le_max_left _ _

theorem mergeCrews_max_ge (p d : Crew) (t : Int) (sn : String) (now : Int) :
    p.max_probability ≤ (mergeCrews p d t sn now).max_probability := by
  unfold mergeCrews
  dsimp only
  rw [gateRatioCheck_max]
  show p.max_probability ≤
    (mergeFlagsTimingPhase (mergeSpatialPhase (mergeMembersPhase
      (mergeKillsPhase (mergeTransitionRecord p d t sn) d now) d) d) d).max_probability
  have h := mergeFlagsTimingPhase_max_ge
    (mergeSpatialPhase (mergeMembersPhase
      (mergeKillsPhase (mergeTransitionRecord p d t sn) d now) d) d) d
  have h2 : (mergeSpatialPhase (mergeMembersPhase
      (mergeKillsPhase (mergeTransitionRecord p d t sn) d now) d) d).max_probability
      = p.max_probability := by
    show (mergeKillsPhase (mergeTransitionRecord p d t sn) d now).max_probability = _
    rw [mergeKillsPhase_max]
    rfl
  rw [h2] at h
  exact h

theorem mergeFoldStep_max_ge (kt : Int) (sn : String) (now : Int)
    (acc : Crew × List (String × Crew)) (dm : String × Q) :
    acc.1.max_probability ≤ (mergeFoldStep kt sn now acc dm).1.max_probability := by
  unfold mergeFoldStep
  split
  · exact mergeCrews_max_ge _ _ kt sn now
  · exact le_refl _

theorem mergeFold_max_ge (kt : Int) (sn : String) (now : Int) :
    ∀ (rest : List (String × Q)) (acc : Crew × List (String × Crew)),
      acc.1.max_probability ≤ ((rest.foldl (mergeFoldStep kt sn now) acc).1).max_probability := by
  intro rest
  induction rest with
  | nil => intro acc; exact le_refl _
  | cons dm t ih =>
    intro acc
    rw [List.foldl_cons]
    exact le_trans (mergeFoldStep_max_ge kt sn now acc dm) (ih _)

theorem tickRel_max_ge {c c' : Crew} {now : Int} (h : tickRel c now c') :
    c.max_probability ≤ c'.max_probability := by
  rcases h with h | h | ⟨pm, hcalc, h⟩
  · rw [h]
  · rw [h, updateMemberStatuses_max_probability]
  · rw [h, tickKeepForm_max_probability]
    have := calc_max_ge hcalc
    rw [updateMemberStatuses_max_probability] at this
    exact this

/-! ### Shared concrete fixtures for witnesses and counterexamples -/

/-- An adjacency relation with no connected systems. -/
def adjFalse : Adjacency := fun _ _ => false

/-- A plain ship kill: one player attacker (char 1), victim char 99. -/
def K1 : Killmail :=
  { killID := some 1
    zkb := { totalValue := 1000 }
    killmail :=
      { killmail_time := some 0
        solar_system_id := some 30000001
        victim := { character_id := some 99, ship_type_id := some 587 }
        attackers := [{ character_id := some 1, corporation_id := some 11,
                        ship_type_id := some 587 }] } }

/-! ## Claims -/

/-- C3: In every state reachable by any sequence of ingest, tick, and merge
operations, every live crew with `stargate_name` set satisfies
`gate_kill_count ≥ ⌈effective_kills / 2⌉`, where `countEffectiveKills`
counts ship kills plus orphan pod kills (follow-up pods excluded from both
numerator and denominator). -/
theorem C3_gate_ratio_invariant {adj : Adjacency} {s : Engine}
    (h : Reachable adj s) :
    ∀ p ∈ s.crews, truthyS p.2.stargate_name = true →
      (countEffectiveKills p.2 + 1) / 2 ≤ p.2.gate_kill_count := by
  induction h with
  | init => intro p hp; cases hp
  | ingest k now nid _ ih =>
    intro p hp
    rcases processKillmail_mem _ _ k now nid p hp with h1 | ⟨c0, sid, sn, rn, h2⟩
    · exact ih p h1
    · have : gateInv p.2 := by
        rw [h2]; exact gateInv_updateCrewWithKill c0 k _ now sid sn rn
      exact this
  | tick now _ ih =>
    intro p hp
    rcases updateActivities_mem _ now p hp with ⟨qq, hq, _, hrel⟩
    exact tickRel_gateInv hrel (ih qq hq)
  | drain _ ih => intro p hp; exact ih p hp

/-- Witness for C3 at the concrete one-ingest state (which holds one crew). -/
theorem C3_witness :
    (∀ p ∈ (processKillmail adjFalse {} K1 0 "crew-1").crews,
      truthyS p.2.stargate_name = true →
      (countEffectiveKills p.2 + 1) / 2 ≤ p.2.gate_kill_count) ∧
    (processKillmail adjFalse {} K1 0 "crew-1").crews.length = 1 :=
  ⟨C3_gate_ratio_invariant (Reachable.ingest K1 0 "crew-1" Reachable.init),
   by decide⟩

/-- C4: For every crew in every reachable state, `probability > 0` implies
`stargate_name` is set (truthy); and the probability computation returns 0
whenever the crew's `stargate_name` is unset. -/
theorem C4_probability_requires_stargate {adj : Adjacency} {s : Engine}
    (h : Reachable adj s) :
    (∀ p ∈ s.crews, 0 < p.2.probability → truthyS p.2.stargate_name = true) ∧
    (∀ (c : Crew) (now : Int), truthyS c.stargate_name = false →
      calcCampProbability c now = some (0, c.max_probability)) := by
  constructor
  · induction h with
    | init => intro p hp; cases hp
    | ingest k now nid _ ih =>
      intro p hp
      rcases processKillmail_mem _ _ k now nid p hp with h1 | ⟨c0, sid, sn, rn, h2⟩
      · exact ih p h1
      · have : probInv p.2 := by
          rw [h2]; exact probInv_updateCrewWithKill c0 k _ now sid sn rn
        exact this
    | tick now _ ih =>
      intro p hp
      rcases updateActivities_mem _ now p hp with ⟨qq, hq, _, hrel⟩
      exact tickRel_probInv hrel (ih qq hq)
    | drain _ ih => intro p hp; exact ih p hp
  · intro c now hc
    exact calc_unset c now hc

/-- Witness for C4 at the concrete one-ingest state. -/
theorem C4_witness :
    (∀ p ∈ (processKillmail adjFalse {} K1 0 "crew-1").crews,
      0 < p.2.probability → truthyS p.2.stargate_name = true) ∧
    (∀ (c : Crew) (now : Int), truthyS c.stargate_name = false →
      calcCampProbability c now = some (0, c.max_probability)) :=
  C4_probability_requires_stargate (Reachable.ingest K1 0 "crew-1" Reachable.init)

theorem extractStep_skip {acc : List Nat × List Nat × List Nat} {a : Attacker}
    (h : truthyN a.character_id = true → a.ship_type_id = some CAPSULE_ID) :
    extractStep acc a = acc := by
  unfold extractStep
  by_cases ht : truthyN a.character_id = true
  · rw [if_neg (by simp [ht]), if_pos (h ht)]
  · rw [if_pos (by simp at ht; simp [ht])]

theorem extractAttackerInfo_empty {km : KmData}
    (h : ∀ a ∈ km.attackers,
      truthyN a.character_id = true → a.ship_type_id = some CAPSULE_ID) :
    extractAttackerInfo km = ([], [], []) := by
  unfold extractAttackerInfo
  have main : ∀ (l : List Attacker) (acc : List Nat × List Nat × List Nat),
      (∀ a ∈ l, truthyN a.character_id = true → a.ship_type_id = some CAPSULE_ID) →
      l.foldl extractStep acc = acc := by
    intro l
    induction l with
    | nil => intro acc _; rfl
    | cons a t ih =>
      intro acc hl
      rw [List.foldl_cons, extractStep_skip (hl a (List.mem_cons_self _ _)),
        ih acc (fun b hb => hl b (List.mem_cons_of_mem _ hb))]
  exact main km.attackers _ h

/-- C9: Ingesting an event in which every attacker that has a character id
is flying a capsule (`CAPSULE_ID = 670`) is a silent no-op: such attackers
are not counted as valid player characters, so no crew is created or
updated and the engine state is unchanged. -/
theorem C9_all_capsule_attackers_noop (adj : Adjacency) (s : Engine)
    (k : Killmail) (now : Int) (newId : String)
    (h : ∀ a ∈ k.killmail.attackers,
      truthyN a.character_id = true → a.ship_type_id = some CAPSULE_ID) :
    processKillmail adj s k now newId = s := by
  unfold processKillmail
  dsimp only
  rw [extractAttackerInfo_empty h]
  rfl

/-- A killmail whose only attackers are a capsule pilot and an NPC. -/
def KCaps : Killmail :=
  { killID := some 2
    killmail :=
      { killmail_time := some 0
        solar_system_id := some 30000001
        victim := { character_id := some 99, ship_type_id := some 587 }
        attackers := [{ character_id := some 5, ship_type_id := some CAPSULE_ID },
                      { character_id := none, ship_type_id := some 587 }] } }

/-- Witness for C9: the concrete capsule-only event leaves the empty
engine unchanged. -/
theorem C9_witness : processKillmail adjFalse {} KCaps 0 "crew-x" = {} :=
  C9_all_capsule_attackers_noop adjFalse {} KCaps 0 "crew-x" (by decide)

/-- C10: `max_probability` is monotonically non-decreasing: a merge never
decreases the primary's `max_probability`; after an ingest every surviving
crew either is the freshly created crew or descends from a same-id crew
with a `max_probability` no larger than its own; and likewise across a
sweep (`update_activities`), even when the current probability drops to 0. -/
theorem C10_max_probability_monotone :
    (∀ (p d : Crew) (t : Int) (sn : String) (now : Int),
      p.max_probability ≤ (mergeCrews p d t sn now).max_probability) ∧
    (∀ (adj : Adjacency) (s : Engine) (k : Killmail) (now : Int) (nid : String),
      ∀ pr ∈ (processKillmail adj s k now nid).crews,
        pr.1 = nid ∨ ∃ c, (pr.1, c) ∈ s.crews ∧
          c.max_probability ≤ pr.2.max_probability) ∧
    (∀ (s : Engine) (now : Int),
      ∀ pr ∈ (updateActivities s now).1.crews,
        ∃ c, (pr.1, c) ∈ s.crews ∧ c.max_probability ≤ pr.2.max_probability) := by
  refine ⟨fun p d t sn now => mergeCrews_max_ge p d t sn now, ?_, ?_⟩
  · intro adj s k now nid pr hp
    unfold processKillmail at hp
    dsimp only at hp
    split at hp
    · exact Or.inr ⟨pr.2, hp, le_refl _⟩
    · split at hp
      · split at hp
        · exact Or.inr ⟨pr.2, hp, le_refl _⟩
        · split at hp
          · exact Or.inr ⟨pr.2, hp, le_refl _⟩
          · rename_i p0 hdg
            rcases mem_dictSet pr hp with h | h
            · exact Or.inr ⟨pr.2, mergeFold_sub _ _ _ _ _ pr h, le_refl _⟩
            · subst h
              refine Or.inr ⟨p0, dictGet_mem hdg, ?_⟩
              exact le_trans (mergeFold_max_ge _ _ _ _ (p0, s.crews))
                (updateCrewWithKill_max_ge _ k _ now _ _ _)
      · split at hp
        · split at hp
          · exact Or.inr ⟨pr.2, hp, le_refl _⟩
          · rename_i c0 hdg
            rcases mem_dictSet pr hp with h | h
            · exact Or.inr ⟨pr.2, h, le_refl _⟩
            · subst h
              refine Or.inr ⟨c0, dictGet_mem hdg, ?_⟩
              exact updateCrewWithKill_max_ge _ k _ now _ _ _
        · rcases mem_dictSet pr hp with h | h
          · exact Or.inr ⟨pr.2, h, le_refl _⟩
          · exact Or.inl (congrArg Prod.fst h)
  · intro s now pr hp
    rcases updateActivities_mem s now pr hp with ⟨qq, hq, hid, hrel⟩
    exact ⟨qq.2, by rw [hid]; exact hq, tickRel_max_ge hrel⟩

/-- Two concrete crews for the C10 witness. -/
def crewA : Crew :=
  { (newCrew "crew-a" (some 30000001) "SysA" none 0) with
    max_probability := 40, kills := [K1] }

def crewB : Crew :=
  { (newCrew "crew-b" (some 30000001) "SysA" none 0) with
    max_probability := 70 }

/-- Witness for C10: a concrete merge does not decrease the primary's
`max_probability`. -/
theorem C10_witness :
    crewA.max_probability ≤ (mergeCrews crewA crewB 5 "SysA" 5).max_probability :=
  C10_max_probability_monotone.1 crewA crewB 5 "SysA" 5

/-! ### Merge-phase field lemmas (for C2) -/

theorem mergeTransitionRecord_fields (p d : Crew) (t : Int) (sn : String) :
    (mergeTransitionRecord p d t sn).id = p.id ∧
    (mergeTransitionRecord p d t sn).kills = p.kills ∧
    (mergeTransitionRecord p d t sn).total_value = p.total_value ∧
    (mergeTransitionRecord p d t sn).prev_session_id = p.prev_session_id :=
  ⟨rfl, rfl, rfl, rfl⟩

theorem mergeKillsPhase_id (p d : Crew) (now : Int) :
    (mergeKillsPhase p d now).id = p.id := by
  unfold mergeKillsPhase
  dsimp only
  split <;> rfl

theorem mergeKillsPhase_prev (p d : Crew) (now : Int) :
    (mergeKillsPhase p d now).prev_session_id = p.prev_session_id := by
  unfold mergeKillsPhase
  dsimp only
  split <;> rfl

theorem mergeKillsPhase_spec (p d : Crew) (now : Int)
    (hnew : d.kills.filter
      (fun k => !((p.kills.map Killmail.killID).contains k.killID)) ≠ []) :
    (mergeKillsPhase p d now).kills =
      stableSort (fun a b => decide (killTimeMs a now ≤ killTimeMs b now))
        (p.kills ++ d.kills.filter
          (fun k => !((p.kills.map Killmail.killID).contains k.killID))) ∧
    (mergeKillsPhase p d now).total_value =
      ((mergeKillsPhase p d now).kills.map (fun k => k.zkb.totalValue)).sum := by
  unfold mergeKillsPhase
  dsimp only
  rw [if_neg (by simpa [List.isEmpty_iff] using hnew)]
  exact ⟨rfl, rfl⟩

theorem mergeMembersPhase_fields (p d : Crew) :
    (mergeMembersPhase p d).id = p.id ∧
    (mergeMembersPhase p d).kills = p.kills ∧
    (mergeMembersPhase p d).total_value = p.total_value ∧
    (mergeMembersPhase p d).prev_session_id = p.prev_session_id :=
  ⟨rfl, rfl, rfl, rfl⟩

theorem mergeSpatialPhase_fields (p d : Crew) :
    (mergeSpatialPhase p d).id = p.id ∧
    (mergeSpatialPhase p d).kills = p.kills ∧
    (mergeSpatialPhase p d).total_value = p.total_value ∧
    (mergeSpatialPhase p d).prev_session_id = p.prev_session_id :=
  ⟨rfl, rfl, rfl, rfl⟩

theorem mergeFlagsTimingPhase_fields (p d : Crew) :
    (mergeFlagsTimingPhase p d).id = p.id ∧
    (mergeFlagsTimingPhase p d).kills = p.kills ∧
    (mergeFlagsTimingPhase p d).total_value = p.total_value := by
  unfold mergeFlagsTimingPhase
  dsimp only
  repeat' split
  all_goals exact ⟨rfl, rfl, rfl⟩

theorem mergeFlagsTimingPhase_prev (p d : Crew)
    (h1 : truthyS p.prev_session_id = false)
    (h2 : CREW_MIN_KILLS_TO_SAVE ≤ d.kills.length) :
    (mergeFlagsTimingPhase p d).prev_session_id = some d.id := by
  unfold mergeFlagsTimingPhase
  dsimp only
  repeat' split
  all_goals first
    | rfl
    | (rename_i hcond; exfalso; apply hcond; simp [h1, h2])

theorem gateRatioCheck_fields (c : Crew) :
    (gateRatioCheck c).id = c.id ∧
    (gateRatioCheck c).kills = c.kills ∧
    (gateRatioCheck c).total_value = c.total_value ∧
    (gateRatioCheck c).prev_session_id = c.prev_session_id := by
  unfold gateRatioCheck
  dsimp only
  split <;> exact ⟨rfl, rfl, rfl, rfl⟩

theorem mergeCrews_fields (p d : Crew) (t : Int) (sn : String) (now : Int) :
    (mergeCrews p d t sn now).id = p.id ∧
    (mergeCrews p d t sn now).kills =
      (mergeKillsPhase (mergeTransitionRecord p d t sn) d now).kills ∧
    (mergeCrews p d t sn now).total_value =
      (mergeKillsPhase (mergeTransitionRecord p d t sn) d now).total_value ∧
    (truthyS p.prev_session_id = false → CREW_MIN_KILLS_TO_SAVE ≤ d.kills.length →
      (mergeCrews p d t sn now).prev_session_id = some d.id) := by
  unfold mergeCrews
  dsimp only
  refine ⟨?_, ?_, ?_, ?_⟩
  · rw [(gateRatioCheck_fields _).1]
    show (mergeFlagsTimingPhase _ _).id = _
    rw [(mergeFlagsTimingPhase_fields _ _).1, (mergeSpatialPhase_fields _ _).1,
      (mergeMembersPhase_fields _ _).1, mergeKillsPhase_id,
      (mergeTransitionRecord_fields p d t sn).1]
  · rw [(gateRatioCheck_fields _).2.1]
    show (mergeFlagsTimingPhase _ _).kills = _
    rw [(mergeFlagsTimingPhase_fields _ _).2.1, (mergeSpatialPhase_fields _ _).2.1,
      (mergeMembersPhase_fields _ _).2.1]
  · rw [(gateRatioCheck_fields _).2.2.1]
    show (mergeFlagsTimingPhase _ _).total_value = _
    rw [(mergeFlagsTimingPhase_fields _ _).2.2, (mergeSpatialPhase_fields _ _).2.2.1,
      (mergeMembersPhase_fields _ _).2.2.1]
  · intro h1 h2
    rw [(gateRatioCheck_fields _).2.2.2]
    show (mergeFlagsTimingPhase _ _).prev_session_id = _
    apply mergeFlagsTimingPhase_prev _ d _ h2
    rw [(mergeSpatialPhase_fields _ _).2.2.2, (mergeMembersPhase_fields _ _).2.2.2,
      mergeKillsPhase_prev, (mergeTransitionRecord_fields p d t sn).2.2.2]
    exact h1

/-- C2: When an event matches two or more crews, the crew with the most
kills becomes the primary (the merge loop sorts matches by kill count
descending and the head of that sort dominates every match) and retains
its id (`mergeCrews` never changes `id`); after a merge the primary's kill
list is a permutation of the union of the two crews' kills deduplicated by
event id, sorted chronologically by event time, and `total_value` is the
sum of values over that merged list; `prev_session_id` is set to the
donor's id when the donor had at least `CREW_MIN_KILLS_TO_SAVE` (2) kills
and it was not already set. -/
theorem C2_merge_spec :
    (∀ (crews : List (String × Crew)) (ms : List (String × Q)) (pid : String)
        (sc : Q) (rest : List (String × Q)),
      stableSort (fun a b => decide (killsOf crews b.1 ≤ killsOf crews a.1)) ms
          = (pid, sc) :: rest →
      ∀ m ∈ ms, killsOf crews m.1 ≤ killsOf crews pid) ∧
    (∀ (p d : Crew) (t : Int) (sn : String) (now : Int),
      (mergeCrews p d t sn now).id = p.id ∧
      (d.kills.filter
          (fun k => !((p.kills.map Killmail.killID).contains k.killID)) ≠ [] →
        (mergeCrews p d t sn now).kills.Perm
          (p.kills ++ d.kills.filter
            (fun k => !((p.kills.map Killmail.killID).contains k.killID))) ∧
        (mergeCrews p d t sn now).kills.Pairwise
          (fun a b => killTimeMs a now ≤ killTimeMs b now) ∧
        (mergeCrews p d t sn now).total_value =
          ((mergeCrews p d t sn now).kills.map (fun k => k.zkb.totalValue)).sum) ∧
      (truthyS p.prev_session_id = false → CREW_MIN_KILLS_TO_SAVE ≤ d.kills.length →
        (mergeCrews p d t sn now).prev_session_id = some d.id)) := by
  constructor
  · intro crews ms pid sc rest hsort m hm
    have htrans : ∀ a b c : String × Q,
        (fun a b => decide (killsOf crews b.1 ≤ killsOf crews a.1)) a b = true →
        (fun a b => decide (killsOf crews b.1 ≤ killsOf crews a.1)) b c = true →
        (fun a b => decide (killsOf crews b.1 ≤ killsOf crews a.1)) a c = true := by
      intro a b c h1 h2
      simp only [decide_eq_true_eq] at h1 h2 ⊢
      exact le_trans h2 h1
    have htot : ∀ a b : String × Q,
        (fun a b => decide (killsOf crews b.1 ≤ killsOf crews a.1)) a b = true ∨
        (fun a b => decide (killsOf crews b.1 ≤ killsOf crews a.1)) b a = true := by
      intro a b
      simp only [decide_eq_true_eq]
      exact (Nat.le_total (killsOf crews b.1) (killsOf crews a.1))
    have hp := pairwise_stableSort _ htrans htot ms
    rw [hsort] at hp
    have hmem : m ∈ (pid, sc) :: rest := by
      rw [← hsort]
      exact (mem_stableSort _ ms m).2 hm
    rcases List.mem_cons.1 hmem with h | h
    · rw [h]
    · exact of_decide_eq_true ((List.pairwise_cons.1 hp).1 m h)
  · intro p d t sn now
    obtain ⟨hid, hkills, htv, hprev⟩ := mergeCrews_fields p d t sn now
    refine ⟨hid, ?_, hprev⟩
    intro hnew
    have hnew' : d.kills.filter (fun k =>
        !(((mergeTransitionRecord p d t sn).kills.map Killmail.killID).contains k.killID)) ≠ [] := hnew
    obtain ⟨hk, ht⟩ := mergeKillsPhase_spec (mergeTransitionRecord p d t sn) d now hnew'
    have hkills2 : (mergeCrews p d t sn now).kills =
        stableSort (fun a b => decide (killTimeMs a now ≤ killTimeMs b now))
          (p.kills ++ d.kills.filter
            (fun k => !((p.kills.map Killmail.killID).contains k.killID))) := by
      rw [hkills]
      exact hk
    refine ⟨?_, ?_, ?_⟩
    · rw [hkills2]
      exact stableSort_perm _ _
    · rw [hkills2]
      have htrans : ∀ a b c : Killmail,
          (fun a b => decide (killTimeMs a now ≤ killTimeMs b now)) a b = true →
          (fun a b => decide (killTimeMs a now ≤ killTimeMs b now)) b c = true →
          (fun a b => decide (killTimeMs a now ≤ killTimeMs b now)) a c = true := by
        intro a b c h1 h2
        simp only [decide_eq_true_eq] at h1 h2 ⊢
        exact le_trans h1 h2
      have htot : ∀ a b : Killmail,
          (fun a b => decide (killTimeMs a now ≤ killTimeMs b now)) a b = true ∨
          (fun a b => decide (killTimeMs a now ≤ killTimeMs b now)) b a = true := by
        intro a b
        simp only [decide_eq_true_eq]
        exact Int.le_total _ _
      exact (pairwise_stableSort _ htrans htot _).imp (fun h => of_decide_eq_true h)
    · rw [htv, hkills, ht]

/-- Concrete killmails for the C2 witness (distinct ids, mixed times). -/
def K5 : Killmail :=
  { killID := some 5
    zkb := { totalValue := 100 }
    killmail :=
      { killmail_time := some 100
        solar_system_id := some 30000001
        victim := { character_id := some 90, ship_type_id := some 587 }
        attackers := [{ character_id := some 1, ship_type_id := some 587 }] } }

def K6 : Killmail :=
  { killID := some 6
    zkb := { totalValue := 200 }
    killmail :=
      { killmail_time := some 50
        solar_system_id := some 30000001
        victim := { character_id := some 91, ship_type_id := some 587 }
        attackers := [{ character_id := some 1, ship_type_id := some 587 }] } }

def K7 : Killmail :=
  { killID := some 7
    zkb := { totalValue := 300 }
    killmail :=
      { killmail_time := some 75
        solar_system_id := some 30000001
        victim := { character_id := some 92, ship_type_id := some 587 }
        attackers := [{ character_id := some 2, ship_type_id := some 587 }] } }

def K8 : Killmail :=
  { killID := some 8
    zkb := { totalValue := 50 }
    killmail :=
      { killmail_time := some 10
        solar_system_id := some 30000001
        victim := { character_id := some 93, ship_type_id := some 587 }
        attackers := [{ character_id := some 2, ship_type_id := some 587 }] } }

def cP : Crew :=
  { (newCrew "crew-p" (some 30000001) "SysA" none 0) with
    kills := [K5, K6], total_value := 300 }

def cD : Crew :=
  { (newCrew "crew-d" (some 30000001) "SysA" none 0) with
    kills := [K7, K8], total_value := 350 }

def crewsC : List (String × Crew) := [("crew-p", cP), ("crew-a", crewA)]

def msC : List (String × Q) := [("crew-a", ⟨1, 2⟩), ("crew-p", ⟨1, 1⟩)]

/-- Witness for C2 on concrete crews: the merged crew keeps the primary's
id, its kills are the time-sorted union, `total_value` is the sum over the
merged kills, `prev_session_id` links the two-kill donor, and the head of
the kill-count sort dominates the other match. -/
theorem C2_witness :
    ((mergeCrews cP cD 10 "SysA" 10).id = cP.id ∧
     (mergeCrews cP cD 10 "SysA" 10).kills.Perm
       (cP.kills ++ cD.kills.filter
         (fun k => !((cP.kills.map Killmail.killID).contains k.killID))) ∧
     (mergeCrews cP cD 10 "SysA" 10).kills.Pairwise
       (fun a b => killTimeMs a 10 ≤ killTimeMs b 10) ∧
     (mergeCrews cP cD 10 "SysA" 10).total_value =
       ((mergeCrews cP cD 10 "SysA" 10).kills.map (fun k => k.zkb.totalValue)).sum ∧
     (mergeCrews cP cD 10 "SysA" 10).prev_session_id = some cD.id) ∧
    killsOf crewsC "crew-a" ≤ killsOf crewsC "crew-p" := by
  have h2 := C2_merge_spec.2 cP cD 10 "SysA" 10
  have hk := h2.2.1 (by decide)
  refine ⟨⟨h2.1, hk.1, hk.2.1, hk.2.2, h2.2.2 (by decide) (by decide)⟩, ?_⟩
  exact C2_merge_spec.1 crewsC msC "crew-p" ⟨1, 1⟩ [("crew-a", ⟨1, 2⟩)] (by decide)
    ("crew-a", ⟨1, 2⟩) (by decide)

/-! ### Core-field preservation along the per-crew update pipeline -/

theorem dictGet_dictSet_ne [DecidableEq κ] {l : List (κ × β)} {k k' : κ} {v : β}
    (h : k' ≠ k) : dictGet (dictSet l k v) k' = dictGet l k' := by
  induction l with
  | nil =>
    simp only [dictSet, dictGet]
    rw [if_neg (fun hh : k = k' => h hh.symm)]
  | cons hd t ih =>
    by_cases hk : hd.1 = k
    · rw [show (hd :: t : List (κ × β)) = (hd.1, hd.2) :: t from rfl]
      simp only [dictSet, if_pos hk, dictGet]
      rw [if_neg (by rw [hk]; exact fun hh => h hh.symm),
        if_neg (by rw [hk]; exact fun hh => h hh.symm)]
    · rw [show (hd :: t : List (κ × β)) = (hd.1, hd.2) :: t from rfl]
      simp only [dictSet, if_neg hk, dictGet]
      split
      · rfl
      · exact ih

/-- `addOrUpdateMember` only touches `members` and `per_member_ships`. -/
theorem addOrUpdateMember_core (c : Crew) (ch : Nat) (co al st : Option Nat) (t : Int) :
    (addOrUpdateMember c ch co al st t).kills = c.kills ∧
    (addOrUpdateMember c ch co al st t).total_value = c.total_value ∧
    (addOrUpdateMember c ch co al st t).last_kill_at = c.last_kill_at ∧
    (addOrUpdateMember c ch co al st t).last_activity_at = c.last_activity_at :=
  ⟨rfl, rfl, rfl, rfl⟩

theorem memberStep_core (t : Int) (c : Crew) (a : Attacker) :
    (memberStep t c a).kills = c.kills ∧
    (memberStep t c a).total_value = c.total_value ∧
    (memberStep t c a).last_kill_at = c.last_kill_at ∧
    (memberStep t c a).last_activity_at = c.last_activity_at := by
  unfold memberStep
  split
  · exact ⟨rfl, rfl, rfl, rfl⟩
  · split
    · exact ⟨rfl, rfl, rfl, rfl⟩
    · exact addOrUpdateMember_core _ _ _ _ _ _

theorem foldl_memberStep_core (t : Int) :
    ∀ (l : List Attacker) (c : Crew),
      (List.foldl (memberStep t) c l).kills = c.kills ∧
      (List.foldl (memberStep t) c l).total_value = c.total_value ∧
      (List.foldl (memberStep t) c l).last_kill_at = c.last_kill_at ∧
      (List.foldl (memberStep t) c l).last_activity_at = c.last_activity_at := by
  intro l
  induction l with
  | nil => intro c; exact ⟨rfl, rfl, rfl, rfl⟩
  | cons a tl ih =>
    intro c
    rw [List.foldl_cons]
    obtain ⟨i1, i2, i3, i4⟩ := ih (memberStep t c a)
    obtain ⟨m1, m2, m3, m4⟩ := memberStep_core t c a
    exact ⟨i1.trans m1, i2.trans m2, i3.trans m3, i4.trans m4⟩

theorem updateAnchor_core (c : Crew) :
    (updateAnchor c).kills = c.kills ∧
    (updateAnchor c).total_value = c.total_value ∧
    (updateAnchor c).last_kill_at = c.last_kill_at ∧
    (updateAnchor c).last_activity_at = c.last_activity_at ∧
    (updateAnchor c).members = c.members := by
  unfold updateAnchor
  dsimp only
  repeat' split
  all_goals exact ⟨rfl, rfl, rfl, rfl, rfl⟩

theorem updateSpatialCore_core (c : Crew) (k : Killmail) (sid : Option Int)
    (sn : String) (rn : Option String) (t : Int) :
    (updateSpatialCore c k sid sn rn t).kills = c.kills ∧
    (updateSpatialCore c k sid sn rn t).total_value = c.total_value ∧
    (updateSpatialCore c k sid sn rn t).last_kill_at = c.last_kill_at ∧
    (updateSpatialCore c k sid sn rn t).last_activity_at = c.last_activity_at ∧
    (updateSpatialCore c k sid sn rn t).members = c.members := by
  unfold updateSpatialCore
  dsimp only
  repeat' split
  all_goals exact ⟨rfl, rfl, rfl, rfl, rfl⟩

theorem gateRatioCheck_core (c : Crew) :
    (gateRatioCheck c).kills = c.kills ∧
    (gateRatioCheck c).total_value = c.total_value ∧
    (gateRatioCheck c).last_kill_at = c.last_kill_at ∧
    (gateRatioCheck c).last_activity_at = c.last_activity_at ∧
    (gateRatioCheck c).members = c.members := by
  unfold gateRatioCheck
  dsimp only
  split <;> exact ⟨rfl, rfl, rfl, rfl, rfl⟩

theorem finishCrewUpdate_core (c : Crew) (k : Killmail) (kt now : Int)
    (sid : Option Int) (sn : String) :
    (finishCrewUpdate c k kt now sid sn).kills = c.kills ∧
    (finishCrewUpdate c k kt now sid sn).total_value = c.total_value ∧
    (finishCrewUpdate c k kt now sid sn).last_kill_at = c.last_kill_at ∧
    (finishCrewUpdate c k kt now sid sn).last_activity_at = c.last_activity_at ∧
    (finishCrewUpdate c k kt now sid sn).members = c.members := by
  have hif :
      (if killHasSmartbombWeapon k then { c with has_smartbombs := true } else c).kills = c.kills ∧
      (if killHasSmartbombWeapon k then { c with has_smartbombs := true } else c).total_value = c.total_value ∧
      (if killHasSmartbombWeapon k then { c with has_smartbombs := true } else c).last_kill_at = c.last_kill_at ∧
      (if killHasSmartbombWeapon k then { c with has_smartbombs := true } else c).last_activity_at = c.last_activity_at ∧
      (if killHasSmartbombWeapon k then { c with has_smartbombs := true } else c).members = c.members := by
    split <;> exact ⟨rfl, rfl, rfl, rfl, rfl⟩
  unfold finishCrewUpdate
  dsimp only
  split
  · exact hif
  · obtain ⟨f1, _, _, f4, f5, f6, f7, _, _⟩ := finishPostProb_fields
      (if killHasSmartbombWeapon k then { c with has_smartbombs := true } else c) k kt sid sn _
    exact ⟨f1.trans hif.1, f5.trans hif.2.1, f6.trans hif.2.2.1,
      f7.trans hif.2.2.2.1, f4.trans hif.2.2.2.2⟩

/-- For a duplicate event id, `_add_kill_to_crew` is the identity. -/
theorem addKillToCrew_dup (c : Crew) (k : Killmail) (t : Int)
    (hdup : c.kills.any (fun e => e.killID = k.killID) = true) :
    addKillToCrew c k t = c := by
  unfold addKillToCrew
  rw [if_pos hdup]

/-- On a fresh event id, `_add_kill_to_crew` appends the kill. -/
theorem addKillToCrew_fresh (c : Crew) (k : Killmail) (t : Int)
    (h : c.kills.any (fun e => e.killID = k.killID) = false) :
    addKillToCrew c k t =
      { c with
          kills := c.kills ++ [k]
          total_value := c.total_value + k.zkb.totalValue
          last_kill_at := t
          last_activity_at := t } := by
  unfold addKillToCrew
  rw [if_neg (by simp [h])]

theorem updateCrewWithKill_core (crew : Crew) (k : Killmail) (kt now : Int)
    (sid : Option Int) (sn : String) (rn : Option String) :
    (updateCrewWithKill crew k kt now sid sn rn).kills = (addKillToCrew crew k kt).kills ∧
    (updateCrewWithKill crew k kt now sid sn rn).total_value = (addKillToCrew crew k kt).total_value ∧
    (updateCrewWithKill crew k kt now sid sn rn).last_kill_at = (addKillToCrew crew k kt).last_kill_at ∧
    (updateCrewWithKill crew k kt now sid sn rn).last_activity_at = (addKillToCrew crew k kt).last_activity_at := by
  unfold updateCrewWithKill updateSpatialState updateMembersFromKill
  obtain ⟨g1, g2, g3, g4, _⟩ := gateRatioCheck_core
    (updateSpatialCore (updateAnchor (List.foldl (memberStep kt)
      (addKillToCrew crew k kt) k.killmail.attackers)) k sid sn rn kt)
  obtain ⟨s1, s2, s3, s4, _⟩ := updateSpatialCore_core
    (updateAnchor (List.foldl (memberStep kt)
      (addKillToCrew crew k kt) k.killmail.attackers)) k sid sn rn kt
  obtain ⟨a1, a2, a3, a4, _⟩ := updateAnchor_core
    (List.foldl (memberStep kt) (addKillToCrew crew k kt) k.killmail.attackers)
  obtain ⟨m1, m2, m3, m4⟩ := foldl_memberStep_core kt k.killmail.attackers
    (addKillToCrew crew k kt)
  obtain ⟨f1, f2, f3, f4, _⟩ := finishCrewUpdate_core
    (gateRatioCheck (updateSpatialCore (updateAnchor (List.foldl (memberStep kt)
      (addKillToCrew crew k kt) k.killmail.attackers)) k sid sn rn kt)) k kt now sid sn
  exact ⟨f1.trans (g1.trans (s1.trans (a1.trans m1))),
    f2.trans (g2.trans (s2.trans (a2.trans m2))),
    f3.trans (g3.trans (s3.trans (a3.trans m3))),
    f4.trans (g4.trans (s4.trans (a4.trans m4)))⟩

/-- `process_killmail` in the single-match case: the matched crew is
updated in place. -/
theorem processKillmail_single (adj : Adjacency) (s : Engine) (k : Killmail)
    (now : Int) (nid cid : String) (sc : Q) (c : Crew)
    (hne : (extractAttackerInfo k.killmail).1 ≠ [])
    (hm : findAllMatchingCrews adj s.crews (extractAttackerInfo k.killmail).1
        (extractAttackerInfo k.killmail).2.1 (extractAttackerInfo k.killmail).2.2
        k.killmail.solar_system_id (killTimeMs k now) = [(cid, sc)])
    (hc : dictGet s.crews cid = some c) :
    processKillmail adj s k now nid =
      { s with
          crews := dictSet s.crews cid
            (updateCrewWithKill c k (killTimeMs k now) now k.killmail.solar_system_id
              (eventSystemName k) k.pinpoints.celestialData.regionname) } := by
  unfold processKillmail
  dsimp only
  rw [if_neg (by simpa [List.isEmpty_iff] using hne), hm,
    if_neg (by simp)]
  dsimp only
  rw [hc]

/-- `process_killmail` in the no-match case: a fresh crew is created and
updated. -/
theorem processKillmail_nomatch (adj : Adjacency) (s : Engine) (k : Killmail)
    (now : Int) (nid : String)
    (hne : (extractAttackerInfo k.killmail).1 ≠ [])
    (hm : findAllMatchingCrews adj s.crews (extractAttackerInfo k.killmail).1
        (extractAttackerInfo k.killmail).2.1 (extractAttackerInfo k.killmail).2.2
        k.killmail.solar_system_id (killTimeMs k now) = []) :
    processKillmail adj s k now nid =
      { s with
          crews := dictSet s.crews nid
            (updateCrewWithKill
              (newCrew nid k.killmail.solar_system_id (eventSystemName k)
                k.pinpoints.celestialData.regionname (killTimeMs k now))
              k (killTimeMs k now) now k.killmail.solar_system_id
              (eventSystemName k) k.pinpoints.celestialData.regionname) } := by
  unfold processKillmail
  dsimp only
  rw [if_neg (by simpa [List.isEmpty_iff] using hne), hm,
    if_neg (by simp)]

/-- C1 counterexample: ingesting `K1` twice.  After the first ingest the
crew holds event id 1 and member 1 has `kill_count = 1`; re-ingesting the
same event leaves the kill list unchanged but increments the member's
`kill_count` to 2, so the engine state is not identical and ingest is not
idempotent on member state. -/
theorem C1_counterexample :
    ((dictGet (processKillmail adjFalse {} K1 0 "crew-1").crews "crew-1").map
        (fun c => (c.kills.map Killmail.killID,
          (dictGet c.members 1).map MemberState.kill_count)) =
      some ([some 1], some 1)) ∧
    ((dictGet (processKillmail adjFalse
          (processKillmail adjFalse {} K1 0 "crew-1") K1 0 "crew-2").crews "crew-1").map
        (fun c => (c.kills.map Killmail.killID,
          (dictGet c.members 1).map MemberState.kill_count)) =
      some ([some 1], some 2)) := by
  decide

/-- C1 as amended: when the duplicate event matches exactly one crew that
already holds its event id, the crew's kill list, `total_value`,
`last_kill_at` and `last_activity_at` are unchanged (the kill list is
deduplicated by event id); member state, however, is updated again. -/
theorem C1_amended (adj : Adjacency) (s : Engine) (k : Killmail)
    (now : Int) (nid cid : String) (sc : Q) (c : Crew)
    (hne : (extractAttackerInfo k.killmail).1 ≠ [])
    (hm : findAllMatchingCrews adj s.crews (extractAttackerInfo k.killmail).1
        (extractAttackerInfo k.killmail).2.1 (extractAttackerInfo k.killmail).2.2
        k.killmail.solar_system_id (killTimeMs k now) = [(cid, sc)])
    (hc : dictGet s.crews cid = some c)
    (hdup : c.kills.any (fun e => e.killID = k.killID) = true) :
    ∃ c', dictGet (processKillmail adj s k now nid).crews cid = some c' ∧
      c'.kills = c.kills ∧ c'.total_value = c.total_value ∧
      c'.last_kill_at = c.last_kill_at ∧ c'.last_activity_at = c.last_activity_at := by
  rw [processKillmail_single adj s k now nid cid sc c hne hm hc]
  refine ⟨_, dictGet_dictSet_self, ?_, ?_, ?_, ?_⟩ <;>
    · obtain ⟨u1, u2, u3, u4⟩ := updateCrewWithKill_core c k (killTimeMs k now) now
        k.killmail.solar_system_id (eventSystemName k) k.pinpoints.celestialData.regionname
      rw [addKillToCrew_dup c k (killTimeMs k now) hdup] at u1 u2 u3 u4
      first
        | exact u1
        | exact u2
        | exact u3
        | exact u4

/-- The engine after a single ingest of `K1`. -/
def s1K1 : Engine := processKillmail adjFalse {} K1 0 "crew-1"

/-- The crew created by that ingest. -/
def crew1AfterK1 : Crew :=
  match dictGet s1K1.crews "crew-1" with
  | some c => c
  | none => newCrew "crew-1" none "" none 0

/-- The score the matcher assigns that crew when `K1` arrives again. -/
def scoreK1 : Q :=
  crewMatchScore adjFalse crew1AfterK1 (extractAttackerInfo K1.killmail).1
    (extractAttackerInfo K1.killmail).2.1 (extractAttackerInfo K1.killmail).2.2
    K1.killmail.solar_system_id (killTimeMs K1 0)

/-- Witness for C1 (amended), at the concrete duplicate ingest of `K1`:
the kill list, `total_value` and activity timestamps are untouched. -/
theorem C1_witness :
    ∃ c', dictGet (processKillmail adjFalse s1K1 K1 0 "crew-2").crews "crew-1" = some c' ∧
      c'.kills = crew1AfterK1.kills ∧ c'.total_value = crew1AfterK1.total_value ∧
      c'.last_kill_at = crew1AfterK1.last_kill_at ∧
      c'.last_activity_at = crew1AfterK1.last_activity_at :=
  C1_amended adjFalse s1K1 K1 0 "crew-2" "crew-1" scoreK1 crew1AfterK1
    (by decide) (by decide) (by decide) (by decide)

/-! ### Member-lookup preservation (for C7) -/

theorem addKillToCrew_members (c : Crew) (k : Killmail) (t : Int) :
    (addKillToCrew c k t).members = c.members := by
  unfold addKillToCrew
  split <;> rfl

theorem memberStep_lookup_ne (t : Int) (c : Crew) (a : Attacker) (v : Nat)
    (hv : truthyN a.character_id = true → ¬(a.ship_type_id = some CAPSULE_ID) →
      a.character_id.getD 0 ≠ v) :
    dictGet (memberStep t c a).members v = dictGet c.members v := by
  unfold memberStep
  split
  · rfl
  · split
    · rfl
    · rename_i h1 h2
      have hne : a.character_id.getD 0 ≠ v := hv (by simpa using h1) h2
      unfold addOrUpdateMember
      dsimp only
      split
      · exact dictGet_dictSet_ne (Ne.symm hne)
      · exact dictGet_dictSet_ne (Ne.symm hne)

theorem foldl_memberStep_lookup_ne (t : Int) (v : Nat) :
    ∀ (l : List Attacker) (c : Crew),
      (∀ a ∈ l, truthyN a.character_id = true → ¬(a.ship_type_id = some CAPSULE_ID) →
        a.character_id.getD 0 ≠ v) →
      dictGet (List.foldl (memberStep t) c l).members v = dictGet c.members v := by
  intro l
  induction l with
  | nil => intro c _; rfl
  | cons a tl ih =>
    intro c hl
    rw [List.foldl_cons,
      ih (memberStep t c a) (fun b hb => hl b (List.mem_cons_of_mem _ hb)),
      memberStep_lookup_ne t c a v (hl a (List.mem_cons_self _ _))]

/-- S7 fixtures: a crew with two active members, one of which the next
event kills. -/
def memberOf (ch : Nat) (t : Int) : MemberState :=
  { character_id := ch, corp_id := some 11, first_seen := t, last_seen := t
    kill_count := 1, status := "active" }

def c7crew : Crew :=
  { (newCrew "c7" (some 30000001) "SysA" none 0) with
    kills := [K1]
    total_value := 1000
    members := [(1, memberOf 1 0), (2, memberOf 2 0)] }

def S7 : Engine := { crews := [("c7", c7crew)] }

/-- The event in which member 2 dies to member 1. -/
def K7e : Killmail :=
  { killID := some 70
    zkb := { totalValue := 500 }
    killmail :=
      { killmail_time := some 60000
        solar_system_id := some 30000001
        victim := { character_id := some 2, ship_type_id := some 587 }
        attackers := [{ character_id := some 1, corporation_id := some 11,
                        ship_type_id := some 587 }] } }

/-- C7 counterexample: member 2 is an active member and is the victim of
`K7e`, yet after ingest its status is still `"active"` — no code path
transitions a victim to `departed`. -/
theorem C7_counterexample :
    (dictGet c7crew.members 2).map MemberState.status = some "active" ∧
    K7e.killmail.victim.character_id = some 2 ∧
    ((dictGet (processKillmail adjFalse S7 K7e 0 "crew-x").crews "c7").map
        (fun c => (dictGet c.members 2).map MemberState.status)) =
      some (some "active") := by
  decide

/-- C7 as amended: during ingest the victim's member state is not touched
at all (member statuses change only through `update_member_statuses` on
tick, or through merges); in the single-match case any member who is not
among the event's valid player attackers keeps its exact `MemberState`,
victim or not. -/
theorem C7_amended (adj : Adjacency) (s : Engine) (k : Killmail)
    (now : Int) (nid cid : String) (sc : Q) (c : Crew) (v : Nat) (m : MemberState)
    (hne : (extractAttackerInfo k.killmail).1 ≠ [])
    (hm : findAllMatchingCrews adj s.crews (extractAttackerInfo k.killmail).1
        (extractAttackerInfo k.killmail).2.1 (extractAttackerInfo k.killmail).2.2
        k.killmail.solar_system_id (killTimeMs k now) = [(cid, sc)])
    (hc : dictGet s.crews cid = some c)
    (hv : ∀ a ∈ k.killmail.attackers, truthyN a.character_id = true →
      ¬(a.ship_type_id = some CAPSULE_ID) → a.character_id.getD 0 ≠ v)
    (hmem : dictGet c.members v = some m) :
    ∃ c', dictGet (processKillmail adj s k now nid).crews cid = some c' ∧
      dictGet c'.members v = some m := by
  rw [processKillmail_single adj s k now nid cid sc c hne hm hc]
  refine ⟨_, dictGet_dictSet_self, ?_⟩
  obtain ⟨_, _, _, _, f5⟩ := finishCrewUpdate_core
    (gateRatioCheck (updateSpatialCore (updateAnchor (List.foldl (memberStep (killTimeMs k now))
      (addKillToCrew c k (killTimeMs k now)) k.killmail.attackers)) k
      k.killmail.solar_system_id (eventSystemName k)
      k.pinpoints.celestialData.regionname (killTimeMs k now))) k (killTimeMs k now) now
    k.killmail.solar_system_id (eventSystemName k)
  obtain ⟨_, _, _, _, g5⟩ := gateRatioCheck_core
    (updateSpatialCore (updateAnchor (List.foldl (memberStep (killTimeMs k now))
      (addKillToCrew c k (killTimeMs k now)) k.killmail.attackers)) k
      k.killmail.solar_system_id (eventSystemName k)
      k.pinpoints.celestialData.regionname (killTimeMs k now))
  obtain ⟨_, _, _, _, sp5⟩ := updateSpatialCore_core
    (updateAnchor (List.foldl (memberStep (killTimeMs k now))
      (addKillToCrew c k (killTimeMs k now)) k.killmail.attackers)) k
    k.killmail.solar_system_id (eventSystemName k)
    k.pinpoints.celestialData.regionname (killTimeMs k now)
  obtain ⟨_, _, _, _, a5⟩ := updateAnchor_core
    (List.foldl (memberStep (killTimeMs k now))
      (addKillToCrew c k (killTimeMs k now)) k.killmail.attackers)
  show dictGet (updateCrewWithKill c k (killTimeMs k now) now _ _ _).members v = some m
  unfold updateCrewWithKill updateSpatialState updateMembersFromKill
  rw [f5, g5, sp5, a5,
    foldl_memberStep_lookup_ne (killTimeMs k now) v k.killmail.attackers
      (addKillToCrew c k (killTimeMs k now)) hv,
    addKillToCrew_members, hmem]

/-- Witness for C7 (amended) at the concrete state `S7`: the victim's
member state survives the ingest byte-for-byte. -/
theorem C7_witness :
    ∃ c', dictGet (processKillmail adjFalse S7 K7e 0 "crew-x").crews "c7" = some c' ∧
      dictGet c'.members 2 = some (memberOf 2 0) :=
  C7_amended adjFalse S7 K7e 0 "crew-x" "c7"
    (crewMatchScore adjFalse c7crew (extractAttackerInfo K7e.killmail).1
      (extractAttackerInfo K7e.killmail).2.1 (extractAttackerInfo K7e.killmail).2.2
      K7e.killmail.solar_system_id (killTimeMs K7e 0))
    c7crew 2 (memberOf 2 0)
    (by decide) (by decide) (by decide) (by decide) (by decide)

/-- An event missing `event_id` (`killID`), `event_time` and `system_id`,
but with one valid player attacker. -/
def K8bad : Killmail :=
  { killID := none
    zkb := { totalValue := 250 }
    killmail :=
      { killmail_time := none
        solar_system_id := none
        victim := { character_id := some 99, ship_type_id := some 587 }
        attackers := [{ character_id := some 1, ship_type_id := some 587 }] } }

/-- C8 counterexample: `K8bad` is missing `event_id`, `event_time` and
`system_id`, yet ingesting it into the empty engine creates a crew — the
event is not rejected and the state mutates; there is no `InvalidEvent`
path in the code at all. -/
theorem C8_counterexample :
    K8bad.killID = none ∧
    K8bad.killmail.killmail_time = none ∧
    K8bad.killmail.solar_system_id = none ∧
    (processKillmail adjFalse {} K8bad 5 "c8").crews.map Prod.fst = ["c8"] := by
  decide

/-- C8 as amended: only events with no valid player attackers are dropped;
an event with a valid player attacker that matches no crew is ingested
normally — a crew is created holding exactly that event — even when
`event_id`, `event_time` or `system_id` are missing (a missing
`event_time` falls back to the wall clock, a missing `system_id`
propagates as a null system id). -/
theorem C8_amended (adj : Adjacency) (s : Engine) (k : Killmail)
    (now : Int) (nid : String)
    (hne : (extractAttackerInfo k.killmail).1 ≠ [])
    (hm : findAllMatchingCrews adj s.crews (extractAttackerInfo k.killmail).1
        (extractAttackerInfo k.killmail).2.1 (extractAttackerInfo k.killmail).2.2
        k.killmail.solar_system_id (killTimeMs k now) = []) :
    ∃ c', dictGet (processKillmail adj s k now nid).crews nid = some c' ∧
      c'.kills = [k] := by
  rw [processKillmail_nomatch adj s k now nid hne hm]
  refine ⟨_, dictGet_dictSet_self, ?_⟩
  obtain ⟨u1, _, _, _⟩ := updateCrewWithKill_core
    (newCrew nid k.killmail.solar_system_id (eventSystemName k)
      k.pinpoints.celestialData.regionname (killTimeMs k now))
    k (killTimeMs k now) now k.killmail.solar_system_id (eventSystemName k)
    k.pinpoints.celestialData.regionname
  rw [u1, addKillToCrew_fresh
    (newCrew nid k.killmail.solar_system_id (eventSystemName k)
      k.pinpoints.celestialData.regionname (killTimeMs k now))
    k (killTimeMs k now) rfl]
  rfl

/-- Witness for C8 (amended): the field-free event `K8bad` really is
ingested into a fresh crew. -/
theorem C8_witness :
    ∃ c', dictGet (processKillmail adjFalse {} K8bad 5 "c8").crews "c8" = some c' ∧
      c'.kills = [K8bad] :=
  C8_amended adjFalse {} K8bad 5 "c8" (by decide) (by decide)

/-! ### Expiry-timeout analysis (for C5) -/

theorem updateMemberStatuses_last_activity (c : Crew) (now : Int) :
    (updateMemberStatuses c now).last_activity_at = c.last_activity_at := rfl

theorem tickKeepForm_last_activity (c1 : Crew) (pm : Int × Int) :
    (tickKeepForm c1 pm).last_activity_at = c1.last_activity_at := rfl

theorem crewTimeoutMs_eq (c : Crew) : crewTimeoutMs c = ROAM_TIMEOUT_MS := by
  unfold crewTimeoutMs
  split <;> rfl

theorem tickCrew_keep_guard {c : Crew} {now : Int} {c2 : Crew} {fl : Bool}
    (h : tickCrew c now = .keep c2 fl) :
    ¬ now - c.last_activity_at > crewTimeoutMs c ∧
    c2.last_activity_at = c.last_activity_at := by
  unfold tickCrew at h
  split at h <;> rename_i hg
  · cases h
  · refine ⟨hg, ?_⟩
    dsimp only at h
    split at h
    · cases h
    · split at h
      · cases h
      · cases h
        rw [tickKeepForm_last_activity, updateMemberStatuses_last_activity]

theorem updateActivitiesGo_keep_src (now : Int) :
    ∀ (rem processed keep : List (String × Crew)) (q : List Crew) (ch : Bool)
      (res : List (String × Crew)) (q2 : List Crew) (b : Bool),
      updateActivitiesGo now rem processed keep q ch = (res, q2, some b) →
      ∀ p ∈ res,
        p ∈ keep ∨ ∃ c fl, (p.1, c) ∈ rem ∧ tickCrew c now = TickStep.keep p.2 fl := by
  intro rem
  induction rem with
  | nil =>
    intro processed keep q ch res q2 b hr p hp
    have h1 : keep = res := congrArg (fun x => x.1) hr
    rw [← h1] at hp
    exact Or.inl hp
  | cons hd t ih =>
    intro processed keep q ch res q2 b hr p hp
    rw [show (hd :: t : List (String × Crew)) = (hd.1, hd.2) :: t from rfl] at hr
    unfold updateActivitiesGo at hr
    split at hr
    · rcases ih _ _ _ _ _ _ _ hr p hp with h | ⟨c, fl, hmem, hk⟩
      · exact Or.inl h
      · exact Or.inr ⟨c, fl, List.mem_cons_of_mem _ hmem, hk⟩
    · rcases ih _ _ _ _ _ _ _ hr p hp with h | ⟨c, fl, hmem, hk⟩
      · exact Or.inl h
      · exact Or.inr ⟨c, fl, List.mem_cons_of_mem _ hmem, hk⟩
    · rename_i c2 chg heq
      rcases ih _ _ _ _ _ _ _ hr p hp with h | ⟨c, fl, hmem, hk⟩
      · rcases List.mem_append.1 h with h | h
        · exact Or.inl h
        · rcases List.mem_singleton.1 h with h
          subst h
          exact Or.inr ⟨hd.2, chg, List.mem_cons_self _ _, heq⟩
      · exact Or.inr ⟨c, fl, List.mem_cons_of_mem _ hmem, hk⟩
    · exact Option.noConfusion (congrArg (fun x => x.2.2) hr)

/-- A crew classified `"roam"` — not one of the long-timeout classes —
whose single kill and single active member date from time 0. -/
def c5crew : Crew :=
  { (newCrew "c5" (some 30000001) "SysA" none 0) with
    classification := "roam"
    kills := [K1] }

def S5 : Engine := { crews := [("c5", c5crew)], expired := [] }

/-- C5 counterexample: a `"roam"` crew 16 minutes past its last activity
SURVIVES the sweep: the code's `ROAM_TIMEOUT_MS` is 30 minutes, not the 15
minutes the spec gives for non-camp classes.  The crew is neither removed
from the live set nor queued. -/
theorem C5_counterexample :
    c5crew.classification ∉ campTimeoutClasses ∧
    (960000 : Int) - c5crew.last_activity_at > 15 * 60 * 1000 ∧
    (updateActivities S5 960000).1.crews.map Prod.fst = ["c5"] ∧
    (updateActivities S5 960000).1.expired = [] := by
  decide

/-- C5 as amended: there is no short timeout.  `ROAM_TIMEOUT_MS` equals
`CAMP_TIMEOUT_MS` equals 30 minutes, so every class uses the same
30-minute expiry; on a successful sweep every surviving crew is within 30
minutes of its last activity. -/
theorem C5_amended (s : Engine) (now : Int)
    (hs : (updateActivities s now).2.isSome = true) :
    ROAM_TIMEOUT_MS = 30 * 60 * 1000 ∧ CAMP_TIMEOUT_MS = ROAM_TIMEOUT_MS ∧
    (∀ c : Crew, crewTimeoutMs c = ROAM_TIMEOUT_MS) ∧
    ∀ p ∈ (updateActivities s now).1.crews,
      now - p.2.last_activity_at ≤ ROAM_TIMEOUT_MS := by
  refine ⟨rfl, rfl, crewTimeoutMs_eq, ?_⟩
  intro p hp
  obtain ⟨b, hb⟩ := Option.isSome_iff_exists.mp hs
  have hr : updateActivitiesGo now s.crews [] [] [] false =
      ((updateActivitiesGo now s.crews [] [] [] false).1,
       (updateActivitiesGo now s.crews [] [] [] false).2.1, some b) := by
    rw [← hb]
    rfl
  rcases updateActivitiesGo_keep_src now s.crews [] [] [] false _ _ b hr p hp with
    h | ⟨c, fl, _, hk⟩
  · cases h
  · obtain ⟨hg, hla⟩ := tickCrew_keep_guard hk
    rw [hla]
    rw [crewTimeoutMs_eq] at hg
    exact not_lt.mp hg

/-- Witness for C5 (amended): the surviving `"roam"` crew of the sweep at
`t = 960000` is indeed within the uniform 30-minute timeout. -/
theorem C5_witness :
    ROAM_TIMEOUT_MS = 30 * 60 * 1000 ∧ CAMP_TIMEOUT_MS = ROAM_TIMEOUT_MS ∧
    (∀ c : Crew, crewTimeoutMs c = ROAM_TIMEOUT_MS) ∧
    ∀ p ∈ (updateActivities S5 960000).1.crews,
      (960000 : Int) - p.2.last_activity_at ≤ ROAM_TIMEOUT_MS :=
  C5_amended S5 960000 (by decide)

/-! ### Dissolution analysis (for C6) -/

theorem tickKeepForm_members (c1 : Crew) (pm : Int × Int) :
    (tickKeepForm c1 pm).members = c1.members := rfl

theorem tickKeepForm_kills (c1 : Crew) (pm : Int × Int) :
    (tickKeepForm c1 pm).kills = c1.kills := rfl

theorem isDissolving_congr {c c' : Crew} (h : c.members = c'.members) :
    isDissolving c = isDissolving c' := by
  unfold isDissolving totalMemberCount activeCount
  rw [h]

theorem tickCrew_keep_not_dissolving {c : Crew} {now : Int} {c2 : Crew} {fl : Bool}
    (h : tickCrew c now = .keep c2 fl) :
    ¬(isDissolving (updateMemberStatuses c now) = true ∧
      CREW_MIN_KILLS_TO_SAVE ≤ (updateMemberStatuses c now).kills.length) := by
  unfold tickCrew at h
  split at h
  · cases h
  · dsimp only at h
    split at h <;> rename_i hd
    · cases h
    · intro ⟨h1, h2⟩
      apply hd
      rw [h1]
      simp only [Bool.true_and, decide_eq_true_eq, ge_iff_le]
      exact h2

theorem updateActivitiesGo_queue_mono (now : Int) :
    ∀ (rem processed keep : List (String × Crew)) (q : List Crew) (ch : Bool),
      ∀ x ∈ q, x ∈ (updateActivitiesGo now rem processed keep q ch).2.1 := by
  intro rem
  induction rem with
  | nil => intro processed keep q ch x hx; exact hx
  | cons hd t ih =>
    intro processed keep q ch x hx
    rw [show (hd :: t : List (String × Crew)) = (hd.1, hd.2) :: t from rfl]
    unfold updateActivitiesGo
    split
    · apply ih
      split
      · exact List.mem_append_left _ hx
      · exact hx
    · exact ih _ _ _ _ x (List.mem_append_left _ hx)
    · exact ih _ _ _ _ x hx
    · exact hx

theorem updateActivitiesGo_dissolved_queued (now : Int) :
    ∀ (rem processed keep : List (String × Crew)) (q : List Crew) (ch : Bool)
      (res : List (String × Crew)) (q2 : List Crew) (b : Bool),
      updateActivitiesGo now rem processed keep q ch = (res, q2, some b) →
      ∀ cid c c1, (cid, c) ∈ rem → tickCrew c now = TickStep.dissolved c1 →
        c1 ∈ q2 := by
  intro rem
  induction rem with
  | nil =>
    intro processed keep q ch res q2 b hr cid c c1 hmem hk
    cases hmem
  | cons hd t ih =>
    intro processed keep q ch res q2 b hr cid c c1 hmem hk
    obtain ⟨hid, hc⟩ := hd
    rcases List.mem_cons.1 hmem with heq | hmem
    · rw [Prod.mk.injEq] at heq
      obtain ⟨h1, h2⟩ := heq
      subst h1
      subst h2
      unfold updateActivitiesGo at hr
      split at hr <;> rename_i heq2
      · rw [hk] at heq2; cases heq2
      · rw [hk] at heq2
        cases heq2
        have := updateActivitiesGo_queue_mono now t (processed ++ [(cid, c1)])
          keep (q ++ [c1]) true c1 (List.mem_append_right _ (List.mem_singleton.2 rfl))
        rw [hr] at this
        exact this
      · rw [hk] at heq2; cases heq2
      · exact Option.noConfusion (congrArg (fun x => x.2.2) hr)
    · unfold updateActivitiesGo at hr
      split at hr
      · exact ih _ _ _ _ _ _ _ hr cid c c1 hmem hk
      · exact ih _ _ _ _ _ _ _ hr cid c c1 hmem hk
      · exact ih _ _ _ _ _ _ _ hr cid c c1 hmem hk
      · exact Option.noConfusion (congrArg (fun x => x.2.2) hr)

theorem updateActivitiesGo_keep_acc (now : Int) :
    ∀ (rem processed keep : List (String × Crew)) (q : List Crew) (ch : Bool)
      (res : List (String × Crew)) (q2 : List Crew) (b : Bool),
      updateActivitiesGo now rem processed keep q ch = (res, q2, some b) →
      ∀ x ∈ keep, x ∈ res := by
  intro rem
  induction rem with
  | nil =>
    intro processed keep q ch res q2 b hr x hx
    have h1 : keep = res := congrArg (fun y => y.1) hr
    rw [← h1]
    exact hx
  | cons hd t ih =>
    intro processed keep q ch res q2 b hr x hx
    rw [show (hd :: t : List (String × Crew)) = (hd.1, hd.2) :: t from rfl] at hr
    unfold updateActivitiesGo at hr
    split at hr
    · exact ih _ _ _ _ _ _ _ hr x hx
    · exact ih _ _ _ _ _ _ _ hr x hx
    · exact ih _ _ _ _ _ _ _ hr x (List.mem_append_left _ hx)
    · exact Option.noConfusion (congrArg (fun y => y.2.2) hr)

theorem updateActivitiesGo_keep_present (now : Int) :
    ∀ (rem processed keep : List (String × Crew)) (q : List Crew) (ch : Bool)
      (res : List (String × Crew)) (q2 : List Crew) (b : Bool),
      updateActivitiesGo now rem processed keep q ch = (res, q2, some b) →
      ∀ cid c c2 fl, (cid, c) ∈ rem → tickCrew c now = TickStep.keep c2 fl →
        (cid, c2) ∈ res := by
  intro rem
  induction rem with
  | nil =>
    intro processed keep q ch res q2 b hr cid c c2 fl hmem hk
    cases hmem
  | cons hd t ih =>
    intro processed keep q ch res q2 b hr cid c c2 fl hmem hk
    obtain ⟨hid, hc⟩ := hd
    rcases List.mem_cons.1 hmem with heq | hmem
    · rw [Prod.mk.injEq] at heq
      obtain ⟨h1, h2⟩ := heq
      subst h1
      subst h2
      unfold updateActivitiesGo at hr
      split at hr <;> rename_i heq2
      · rw [hk] at heq2; cases heq2
      · rw [hk] at heq2; cases heq2
      · rw [hk] at heq2
        cases heq2
        exact updateActivitiesGo_keep_acc now t _ _ _ _ _ _ _ hr (cid, c2)
          (List.mem_append_right _ (List.mem_singleton.2 rfl))
      · exact Option.noConfusion (congrArg (fun x => x.2.2) hr)
    · unfold updateActivitiesGo at hr
      split at hr
      · exact ih _ _ _ _ _ _ _ hr cid c c2 fl hmem hk
      · exact ih _ _ _ _ _ _ _ hr cid c c2 fl hmem hk
      · exact ih _ _ _ _ _ _ _ hr cid c c2 fl hmem hk
      · exact Option.noConfusion (congrArg (fun x => x.2.2) hr)

theorem updateActivitiesGo_no_crash (now : Int) :
    ∀ (rem processed keep : List (String × Crew)) (q : List Crew) (ch : Bool)
      (res : List (String × Crew)) (q2 : List Crew) (b : Bool),
      updateActivitiesGo now rem processed keep q ch = (res, q2, some b) →
      ∀ cid c, (cid, c) ∈ rem → ∀ c1, tickCrew c now ≠ TickStep.crashed c1 := by
  intro rem
  induction rem with
  | nil =>
    intro processed keep q ch res q2 b hr cid c hmem c1 hk
    cases hmem
  | cons hd t ih =>
    intro processed keep q ch res q2 b hr cid c hmem c1 hk
    obtain ⟨hid, hc⟩ := hd
    rcases List.mem_cons.1 hmem with heq | hmem
    · rw [Prod.mk.injEq] at heq
      obtain ⟨h1, h2⟩ := heq
      subst h1
      subst h2
      unfold updateActivitiesGo at hr
      split at hr <;> rename_i heq2
      · rw [hk] at heq2; cases heq2
      · rw [hk] at heq2; cases heq2
      · rw [hk] at heq2; cases heq2
      · exact Option.noConfusion (congrArg (fun x => x.2.2) hr)
    · unfold updateActivitiesGo at hr
      split at hr
      · exact ih _ _ _ _ _ _ _ hr cid c hmem c1 hk
      · exact ih _ _ _ _ _ _ _ hr cid c hmem c1 hk
      · exact ih _ _ _ _ _ _ _ hr cid c hmem c1 hk
      · exact Option.noConfusion (congrArg (fun x => x.2.2) hr)

/-- A member already in the terminal `"departed"` state since time 0. -/
def c6member (ch : Nat) : Nat × MemberState :=
  (ch, { memberOf ch 0 with status := "departed" })

/-- A dissolving crew (3 members, none active) holding a single kill. -/
def c6crew : Crew :=
  { (newCrew "c6" (some 30000001) "SysA" none 0) with
    kills := [K1]
    members := [c6member 11, c6member 12, c6member 13] }

/-- A dissolving crew (3 members, none active) holding two kills. -/
def c6big : Crew :=
  { c6crew with id := "c6b", kills := [K1, K6] }

def S6 : Engine := { crews := [("c6", c6crew)], expired := [] }

def S6b : Engine := { crews := [("c6b", c6big), ("c6", c6crew)], expired := [] }

/-- C6 counterexample: a dissolving crew with fewer than 2 kills is NOT
removed on tick — the dissolution branch requires
`len(crew.kills) >= CREW_MIN_KILLS_TO_SAVE`, so a 1-kill dissolving crew
stays in the live set (and nothing is queued), where the spec says every
dissolving crew is removed and archiving alone is conditional on the kill
count. -/
theorem C6_counterexample :
    isDissolving (updateMemberStatuses c6crew 1000) = true ∧
    ¬ (1000 : Int) - c6crew.last_activity_at > crewTimeoutMs c6crew ∧
    c6crew.kills.length < CREW_MIN_KILLS_TO_SAVE ∧
    (updateActivities S6 1000).1.crews.map Prod.fst = ["c6"] ∧
    (updateActivities S6 1000).1.expired = [] := by
  decide

/-- C6 as amended: removal and archiving coincide.  On a successful sweep
(1) no surviving crew is dissolving with ≥ 2 kills; (2) a non-expired
crew that is dissolving (after member ageing) with ≥ 2 kills is emitted
to the archive queue; (3) a dissolving crew with < 2 kills is neither
removed nor queued: it survives the sweep with its members and kills
intact. -/
theorem C6_amended (s : Engine) (now : Int) (cid : String) (c : Crew)
    (hs : (updateActivities s now).2.isSome = true)
    (hmem : (cid, c) ∈ s.crews)
    (hnx : ¬ now - c.last_activity_at > crewTimeoutMs c)
    (hdis : isDissolving (updateMemberStatuses c now) = true) :
    (∀ p ∈ (updateActivities s now).1.crews,
       ¬(isDissolving p.2 = true ∧ CREW_MIN_KILLS_TO_SAVE ≤ p.2.kills.length)) ∧
    (CREW_MIN_KILLS_TO_SAVE ≤ (updateMemberStatuses c now).kills.length →
       updateMemberStatuses c now ∈ (updateActivities s now).1.expired) ∧
    ((updateMemberStatuses c now).kills.length < CREW_MIN_KILLS_TO_SAVE →
       ∃ c2, (cid, c2) ∈ (updateActivities s now).1.crews ∧
         c2.members = (updateMemberStatuses c now).members ∧
         c2.kills = (updateMemberStatuses c now).kills) := by
  obtain ⟨b, hb⟩ := Option.isSome_iff_exists.mp hs
  have hr : updateActivitiesGo now s.crews [] [] [] false =
      ((updateActivitiesGo now s.crews [] [] [] false).1,
       (updateActivitiesGo now s.crews [] [] [] false).2.1, some b) := by
    rw [← hb]
    rfl
  refine ⟨?_, ?_, ?_⟩
  · intro p hp
    rcases updateActivitiesGo_keep_src now s.crews [] [] [] false _ _ b hr p hp with
      h | ⟨c', fl, _, hk⟩
    · cases h
    · intro ⟨h1, h2⟩
      rcases tickCrew_keep_eq hk with ⟨pm, _, he⟩
      apply tickCrew_keep_not_dissolving hk
      constructor
      · rw [← isDissolving_congr (tickKeepForm_members (updateMemberStatuses c' now) pm),
          ← he]
        exact h1
      · rw [← tickKeepForm_kills (updateMemberStatuses c' now) pm, ← he]
        exact h2
  · intro h2k
    have hk : tickCrew c now = TickStep.dissolved (updateMemberStatuses c now) := by
      unfold tickCrew
      rw [if_neg hnx]
      dsimp only
      rw [if_pos]
      rw [hdis]
      simp only [Bool.true_and, decide_eq_true_eq, ge_iff_le]
      exact h2k
    have hq := updateActivitiesGo_dissolved_queued now s.crews [] [] [] false _ _ b hr
      cid c (updateMemberStatuses c now) hmem hk
    exact List.mem_append_right _ hq
  · intro hlt
    have hcondf : (isDissolving (updateMemberStatuses c now) &&
        decide ((updateMemberStatuses c now).kills.length ≥ CREW_MIN_KILLS_TO_SAVE))
        = false := by
      rw [hdis]
      simp only [Bool.true_and, decide_eq_false_iff_not, ge_iff_le, not_le]
      exact hlt
    cases hcalc : calcCampProbability (updateMemberStatuses c now) now with
    | none =>
      exfalso
      apply updateActivitiesGo_no_crash now s.crews [] [] [] false _ _ b hr cid c hmem
        (updateMemberStatuses c now)
      unfold tickCrew
      rw [if_neg hnx]
      dsimp only
      rw [if_neg (by rw [hcondf]; exact Bool.false_ne_true), hcalc]
    | some pm =>
      have hk : ∃ c2 fl, tickCrew c now = TickStep.keep c2 fl := by
        unfold tickCrew
        rw [if_neg hnx]
        dsimp only
        rw [if_neg (by rw [hcondf]; exact Bool.false_ne_true), hcalc]
        exact ⟨_, _, rfl⟩
      obtain ⟨c2, fl, hk⟩ := hk
      refine ⟨c2, updateActivitiesGo_keep_present now s.crews [] [] [] false _ _ b hr
        cid c c2 fl hmem hk, ?_, ?_⟩
      · rcases tickCrew_keep_eq hk with ⟨pm', _, he⟩
        rw [he, tickKeepForm_members]
      · rcases tickCrew_keep_eq hk with ⟨pm', _, he⟩
        rw [he, tickKeepForm_kills]

/-- Witness for C6 (amended): at `t = 1000` over `S6b` the 2-kill
dissolving crew is queued for archive, no survivor is a ≥2-kill
dissolving crew, and the 1-kill dissolving crew survives with its members
and kill intact. -/
theorem C6_witness :
    (updateMemberStatuses c6big 1000 ∈ (updateActivities S6b 1000).1.expired) ∧
    (∀ p ∈ (updateActivities S6b 1000).1.crews,
       ¬(isDissolving p.2 = true ∧ CREW_MIN_KILLS_TO_SAVE ≤ p.2.kills.length)) ∧
    ∃ c2, ("c6", c2) ∈ (updateActivities S6b 1000).1.crews ∧
      c2.members = (updateMemberStatuses c6crew 1000).members ∧
      c2.kills = (updateMemberStatuses c6crew 1000).kills := by
  refine ⟨?_, ?_, ?_⟩
  · exact (C6_amended S6b 1000 "c6b" c6big (by decide) (by decide) (by decide)
      (by decide)).2.1 (by decide)
  · exact (C6_amended S6b 1000 "c6b" c6big (by decide) (by decide) (by decide)
      (by decide)).1
  · exact (C6_amended S6b 1000 "c6" c6crew (by decide) (by decide) (by decide)
      (by decide)).2.2 (by decide)

end ZCamp
